import Mathlib

/-!
Verification development for the zshrcman profile-scoped installation
state engine.  The Rust sources (src/models.rs, src/modules/state_manager.rs,
src/modules/environment.rs, src/modules/profile_switcher.rs, src/main.rs)
are shallowly embedded: `HashMap<String, V>` becomes an association list
with first-match lookup, `HashSet<String>` becomes a list with
membership-based insert/remove, process environment variables become an
association list, and the on-disk configuration snapshot becomes a
`Config` value carried inside the state manager (a `save` copies the
in-memory maps into it).  Filesystem state touched by the profile
switcher (per-profile bin directories, the shell startup file) is carried
in a `World` record.
-/

/-- First-match lookup in an association list (embeds `HashMap::get`). -/
def lookupL {α : Type} (l : List (String × α)) (k : String) : Option α :=
  match l with
  | [] => none
  | (k', v) :: t => if k' = k then some v else lookupL t k

/-- Insert-or-replace (embeds `HashMap::insert`). -/
def insertL {α : Type} (k : String) (v : α) : List (String × α) → List (String × α)
  | [] => [(k, v)]
  | (k', v') :: t => if k' = k then (k, v) :: t else (k', v') :: insertL k v t

/-- Key removal (embeds `HashMap::remove`). -/
def removeL {α : Type} (k : String) : List (String × α) → List (String × α)
  | [] => []
  | (k', v) :: t => if k' = k then removeL k t else (k', v) :: removeL k t

/-- Update the entry at a key, if present (embeds `HashMap::get_mut` + mutation). -/
def adjustL {α : Type} (k : String) (f : α → α) : List (String × α) → List (String × α)
  | [] => []
  | (k', v) :: t => if k' = k then (k', f v) :: t else (k', v) :: adjustL k f t

/-- Set insert (embeds `HashSet::insert`). -/
def insertS (x : String) (l : List String) : List String :=
  if l.contains x then l else x :: l

/-- Set removal (embeds `HashSet::remove`). -/
def removeS (x : String) : List String → List String
  | [] => []
  | y :: t => if y = x then removeS x t else y :: removeS x t

@[simp] theorem lookupL_nil {α : Type} (k : String) : lookupL ([] : List (String × α)) k = none := rfl

@[simp] theorem lookupL_cons {α : Type} (k k' : String) (v : α) (t : List (String × α)) :
    lookupL ((k', v) :: t) k = if k' = k then some v else lookupL t k := rfl

theorem lookupL_insertL {α : Type} (k k' : String) (v : α) (l : List (String × α)) :
    lookupL (insertL k v l) k' = if k = k' then some v else lookupL l k' := by
  induction l with
  | nil => simp [insertL, lookupL]
  | cons e t ih =>
    obtain ⟨k0, v0⟩ := e
    by_cases h0 : k0 = k
    · subst h0
      by_cases h1 : k0 = k'
      · subst h1; simp [insertL, lookupL]
      · simp [insertL, lookupL, h1]
    · by_cases h1 : k0 = k'
      · subst h1
        have h2 : ¬ k = k0 := by intro h; exact h0 h.symm
        simp [insertL, lookupL, h0, h2]
      · simp [insertL, lookupL, h0, h1, ih]

theorem lookupL_removeL {α : Type} (k k' : String) (l : List (String × α)) :
    lookupL (removeL k l) k' = if k' = k then none else lookupL l k' := by
  induction l with
  | nil => simp [removeL, lookupL]
  | cons e t ih =>
    obtain ⟨k0, v0⟩ := e
    by_cases h0 : k0 = k
    · subst h0
      by_cases h1 : k0 = k'
      · subst h1; simp [removeL, ih]
      · simp [removeL, lookupL, h1, ih]
    · by_cases h1 : k0 = k'
      · subst h1
        have h2 : ¬ k = k0 := by intro h; exact h0 h.symm
        simp [removeL, lookupL, h0, h2]
      · simp [removeL, lookupL, h0, h1, ih]

theorem lookupL_adjustL {α : Type} (k k' : String) (f : α → α) (l : List (String × α)) :
    lookupL (adjustL k f l) k' =
      if k' = k then (lookupL l k).map f else lookupL l k' := by
  induction l with
  | nil => simp [adjustL, lookupL]
  | cons e t ih =>
    obtain ⟨k0, v0⟩ := e
    by_cases h0 : k0 = k
    · subst h0
      by_cases h1 : k0 = k'
      · subst h1; simp [adjustL, lookupL]
      · have h2 : ¬ k' = k0 := by intro h; exact h1 h.symm
        simp [adjustL, lookupL, h1, h2]
    · by_cases h1 : k0 = k'
      · subst h1
        have h2 : ¬ k0 = k := h0
        have h3 : ¬ k = k0 := by intro h; exact h0 h.symm
        simp [adjustL, lookupL, h2, h3]
      · simp [adjustL, lookupL, h0, h1, ih]

theorem mem_insertS (a x : String) (l : List String) :
    a ∈ insertS x l ↔ a = x ∨ a ∈ l := by
  unfold insertS
  by_cases h : l.contains x
  · have hm : x ∈ l := by
      rcases List.contains_iff_exists_mem_beq.mp h with ⟨y, hy, hbeq⟩
      have hxy : x = y := by
        have := hbeq
        rwa [beq_iff_eq] at this
      exact hxy ▸ hy
    rw [if_pos h]
    constructor
    · exact fun ha => Or.inr ha
    · rintro (rfl | ha)
      · exact hm
      · exact ha
  · rw [if_neg h]
    exact List.mem_cons

theorem removeS_cons_eq (x : String) (t : List String) :
    removeS x (x :: t) = removeS x t := by
  simp [removeS]

theorem removeS_cons_ne (x y : String) (t : List String) (h : y ≠ x) :
    removeS x (y :: t) = y :: removeS x t := by
  simp [removeS, h]

theorem mem_removeS (a x : String) (l : List String) :
    a ∈ removeS x l ↔ a ∈ l ∧ a ≠ x := by
  induction l with
  | nil => simp [removeS]
  | cons y t ih =>
    by_cases h : y = x
    · subst h
      rw [removeS_cons_eq, ih]
      constructor
      · rintro ⟨ha, hne⟩; exact ⟨List.mem_cons_of_mem _ ha, hne⟩
      · rintro ⟨ha, hne⟩
        rcases List.mem_cons.mp ha with rfl | ha2
        · exact absurd rfl hne
        · exact ⟨ha2, hne⟩
    · rw [removeS_cons_ne x y t h]
      constructor
      · intro ha
        rcases List.mem_cons.mp ha with rfl | ha2
        · exact ⟨List.mem_cons_self a t, h⟩
        · rcases ih.mp ha2 with ⟨hb, hne⟩
          exact ⟨List.mem_cons_of_mem _ hb, hne⟩
      · rintro ⟨ha, hne⟩
        rcases List.mem_cons.mp ha with rfl | ha2
        · exact List.mem_cons_self a (removeS x t)
        · exact List.mem_cons_of_mem _ (ih.mpr ⟨ha2, hne⟩)

/-! ## Data model (src/models.rs) -/

/-- `InstallationSource` from src/models.rs. -/
inductive InstallationSource
  | Profile (name : String)
  | Global
  | System
  | Manual
  | Dependency (name : String)
deriving DecidableEq

/-- `InstallScope` from src/models.rs. -/
inductive InstallScope
  | System
  | Global
  | Profile
  | Local
  | Device
deriving DecidableEq

/-- `OsType` from src/models.rs. -/
inductive OsType
  | MacOS
  | Windows
  | Linux
  | Universal
deriving DecidableEq

/-- `EnvironmentState` from src/models.rs (maps become association lists). -/
structure EnvironmentState where
  paths_prepend : List String
  paths_append : List String
  /-- the `variables` map of the Rust struct (`variables` is reserved in Lean) -/
  vars : List (String × String)
  aliases : List (String × String)
  active : Bool
deriving DecidableEq

/-- The `Default` impl of `EnvironmentState` (empty, `active: true`). -/
def defaultEnvironmentState : EnvironmentState :=
  { paths_prepend := [], paths_append := [], vars := [], aliases := [], active := true }

/-- `ProfileOverride` from src/models.rs. -/
structure ProfileOverride where
  packages : List String
  environment : Option EnvironmentState
deriving DecidableEq

/-- `Profile` from src/models.rs. -/
structure Profile where
  name : String
  parent : Option String
  packages : List String
  environment : EnvironmentState
  os_overrides : List (OsType × ProfileOverride)
deriving DecidableEq

/-- `InstallationRecord` from src/models.rs; the chrono timestamp is a `Nat`. -/
structure InstallationRecord where
  package : String
  version : Option String
  installed_at : Nat
  installed_by : InstallationSource
  active_for : List String
  scope : InstallScope
  location : Option String
  installer_type : String
deriving DecidableEq

/-- The persisted snapshot (`Config` from src/models.rs, restricted to the
fields the state manager reads and writes: `installations`, `profiles`,
`active_profile`; the remaining `Config` fields are never touched by the
operations modelled here). -/
structure Config where
  installations : List (String × InstallationRecord)
  profiles : List (String × Profile)
  active_profile : Option String
deriving DecidableEq

/-! ## State manager (src/modules/state_manager.rs) -/

/-- `InstallationStateManager`; `config` embeds the `ConfigManager`'s
on-disk snapshot (what `config_mgr.save()` would have written). -/
structure InstallationStateManager where
  installations : List (String × InstallationRecord)
  profiles : List (String × Profile)
  active_profile : Option String
  config : Config
deriving DecidableEq

namespace InstallationStateManager

/-- `is_installed`. -/
def is_installed (s : InstallationStateManager) (package : String) : Bool :=
  (lookupL s.installations package).isSome

/-- `save_state`: copy the in-memory maps into the persisted snapshot. -/
def save_state (s : InstallationStateManager) : InstallationStateManager :=
  { s with config := { installations := s.installations, profiles := s.profiles,
                       active_profile := s.active_profile } }

/-- `activate_for_profile`. -/
def activate_for_profile (s : InstallationStateManager) (package : String) :
    InstallationStateManager :=
  match s.active_profile with
  | none => s
  | some profile_id =>
    let inst2 := adjustL package
      (fun r => { r with active_for := insertS profile_id r.active_for }) s.installations
    let profs2 := adjustL profile_id
      (fun pr => { pr with packages := insertS package pr.packages }) s.profiles
    save_state { s with installations := inst2, profiles := profs2 }

/-- `deactivate_for_profile`. -/
def deactivate_for_profile (s : InstallationStateManager) (package : String) :
    InstallationStateManager :=
  match s.active_profile with
  | none => s
  | some profile_id =>
    let inst2 := adjustL package
      (fun r => { r with active_for := removeS profile_id r.active_for }) s.installations
    let profs2 := adjustL profile_id
      (fun pr => { pr with packages := removeS package pr.packages }) s.profiles
    save_state { s with installations := inst2, profiles := profs2 }

/-- `perform_installation` (the installer-invoking path; `now` models
`chrono::Utc::now()`). -/
def perform_installation (now : Nat) (s : InstallationStateManager) (package : String)
    (scope : InstallScope) : InstallationStateManager :=
  let profile_id := s.active_profile.getD "default"
  let record : InstallationRecord :=
    { package := package, version := none, installed_at := now,
      installed_by := InstallationSource.Profile profile_id,
      active_for := [profile_id], scope := scope, location := none,
      installer_type := "auto" }
  let inst2 := insertL package record s.installations
  let profs2 := adjustL profile_id
    (fun pr => { pr with packages := insertS package pr.packages }) s.profiles
  save_state { s with installations := inst2, profiles := profs2 }

/-- `perform_uninstallation`. -/
def perform_uninstallation (s : InstallationStateManager) (package : String) :
    InstallationStateManager :=
  save_state { s with installations := removeL package s.installations }

/-- `remove_from_profile_list` (note: `save_state` runs unconditionally). -/
def remove_from_profile_list (s : InstallationStateManager) (package : String) :
    InstallationStateManager :=
  let s1 :=
    match s.active_profile with
    | none => s
    | some profile_id =>
      let profs2 := adjustL profile_id
        (fun pr => { pr with packages := removeS package pr.packages }) s.profiles
      { s with profiles := profs2 }
  save_state s1

/-- `used_by_other_profiles`. -/
def used_by_other_profiles (s : InstallationStateManager) (package : String) : Bool :=
  match lookupL s.installations package, s.active_profile with
  | some record, some current => record.active_for.any (fun p => p ≠ current)
  | _, _ => false

/-- `get_usage_count`. -/
def get_usage_count (s : InstallationStateManager) (package : String) : Nat :=
  match lookupL s.installations package with
  | some record => record.active_for.length
  | none => 0

/-- `remove_from_all_profiles`. -/
def remove_from_all_profiles (s : InstallationStateManager) (package : String) :
    InstallationStateManager :=
  let profs2 := s.profiles.map
    (fun e => (e.1, { e.2 with packages := removeS package e.2.packages }))
  save_state { s with profiles := profs2 }

/-- `mark_for_gc` (a TODO no-op in the source). -/
def mark_for_gc (s : InstallationStateManager) (_package : String) :
    InstallationStateManager := s

/-- `smart_install`; the boolean records whether the installer path
(`perform_installation`) was taken. -/
def smart_install (now : Nat) (s : InstallationStateManager) (package : String)
    (scope : InstallScope) : InstallationStateManager × Bool :=
  if is_installed s package then
    (activate_for_profile s package, false)
  else
    (perform_installation now s package scope, true)

/-- `RemovalStrategy` from src/models.rs. -/
inductive RemovalStrategy
  | Deactivate
  | RemoveFromProfile
  | SmartRemove
  | ForceRemove
  | MarkUnused
deriving DecidableEq

/-- `handle_removal`; the optional `Nat` is the remaining-reference count
printed by the `SmartRemove` arm (`usage_count - 1`). -/
def handle_removal (s : InstallationStateManager) (package : String)
    (strategy : RemovalStrategy) : InstallationStateManager × Option Nat :=
  match strategy with
  | RemovalStrategy.Deactivate => (deactivate_for_profile s package, none)
  | RemovalStrategy.RemoveFromProfile =>
    let s1 := remove_from_profile_list s package
    if used_by_other_profiles s1 package then (s1, none)
    else (deactivate_for_profile s1 package, none)
  | RemovalStrategy.SmartRemove =>
    let usage_count := get_usage_count s package
    if usage_count ≤ 1 then (perform_uninstallation s package, none)
    else (deactivate_for_profile s package, some (usage_count - 1))
  | RemovalStrategy.ForceRemove =>
    (remove_from_all_profiles (perform_uninstallation s package) package, none)
  | RemovalStrategy.MarkUnused =>
    (deactivate_for_profile (mark_for_gc s package) package, none)

/-- `create_profile`. -/
def create_profile (s : InstallationStateManager) (name : String)
    (parent : Option String) : InstallationStateManager :=
  let profile : Profile :=
    { name := name, parent := parent, packages := [],
      environment := defaultEnvironmentState, os_overrides := [] }
  save_state { s with profiles := insertL name profile s.profiles }

/-- `switch_profile` (bails when the profile does not exist). -/
def switch_profile (s : InstallationStateManager) (name : String) :
    Except String InstallationStateManager :=
  if (lookupL s.profiles name).isSome then
    Except.ok (save_state { s with active_profile := some name })
  else
    Except.error ("Profile " ++ name ++ " does not exist")

/-- `get_active_packages`. -/
def get_active_packages (s : InstallationStateManager) (profile : String) : List String :=
  match lookupL s.profiles profile with
  | some profile_data => profile_data.packages
  | none => []

/-- `get_package_info`. -/
def get_package_info (s : InstallationStateManager) (package : String) :
    Option InstallationRecord :=
  lookupL s.installations package

end InstallationStateManager

/-! ## String utilities used by the environment code -/

/-- Char-list prefix test (embeds `str::starts_with` on the character level). -/
def chPre : List Char → List Char → Bool
  | [], _ => true
  | _ :: _, [] => false
  | a :: as, b :: bs => a = b && chPre as bs

/-- Char-list substring test (embeds `str::contains(&str)`). -/
def chInfix (needle : List Char) : List Char → Bool
  | [] => chPre needle []
  | c :: t => chPre needle (c :: t) || chInfix needle t

/-- `hay.contains(needle)` on Rust strings (substring containment). -/
def strContains (hay needle : String) : Bool :=
  chInfix needle.toList hay.toList

/-- `content.starts_with(pat)`. -/
def strStartsWith (s pat : String) : Bool :=
  chPre pat.toList s.toList

/-- Index of the first occurrence of `needle` (embeds `str::find(&str)`). -/
def findSubIdx (needle : List Char) : List Char → Option Nat
  | [] => if chPre needle [] then some 0 else none
  | c :: t => if chPre needle (c :: t) then some 0 else (findSubIdx needle t).map (· + 1)

/-- Index of the first occurrence of a character (embeds `str::find(char)`). -/
def findChar (ch : Char) : List Char → Option Nat
  | [] => none
  | c :: t => if c = ch then some 0 else (findChar ch t).map (· + 1)

/-- Colon join (embeds `Vec::join(":")` and the `format!("{}:{}", ...)` chains). -/
def joinColon : List String → String
  | [] => ""
  | s :: t =>
    match t with
    | [] => s
    | _ :: _ => s ++ ":" ++ joinColon t

/-- Helper for `splitColon`: structural split on `':'`. -/
def splitColonL (acc : List Char) : List Char → List String
  | [] => [String.mk acc.reverse]
  | c :: t =>
    if c = ':' then String.mk acc.reverse :: splitColonL [] t
    else splitColonL (c :: acc) t

/-- Colon split (embeds `str::split(':').collect()`). -/
def splitColon (s : String) : List String :=
  splitColonL [] s.toList

/-! ## Environment manager (src/modules/environment.rs) -/

/-- The process environment: a map from variable names to values. -/
abbrev EnvMap : Type := List (String × String)

/-- `env::var`. -/
def envVar (e : EnvMap) (k : String) : Option String := lookupL e k

/-- `env::set_var`. -/
def setEnvVar (e : EnvMap) (k v : String) : EnvMap := insertL k v e

/-- `env::remove_var`. -/
def removeEnvVar (e : EnvMap) (k : String) : EnvMap := removeL k e

/-- `expand_path`: home-directory and `$HOME` expansion.  Both branches are
guarded by a `starts_with` test, so `replacen(pat, home, 1)` replaces the
occurrence at position 0, i.e. yields `home ++ path[pat.len()..]`.
Returns `none` when the expansion needs `HOME` and it is unset. -/
def expandPath (home : Option String) (path : String) : Option String :=
  if strStartsWith path "~/" then
    match home with
    | some h => some (h ++ String.mk (path.toList.drop 1))
    | none => none
  else if strStartsWith path "$HOME" then
    match home with
    | some h => some (h ++ String.mk (path.toList.drop 5))
    | none => none
  else
    some path

/-- The prepend loop of `apply_path_changes`: each path is expanded and, if
not already contained in the PATH string, put in front of it. -/
def prependLoop (home : Option String) (cur : String) : List String → Option String
  | [] => some cur
  | p :: ps =>
    match expandPath home p with
    | none => none
    | some expanded =>
      prependLoop home
        (if strContains cur expanded then cur else expanded ++ ":" ++ cur) ps

/-- The append loop of `apply_path_changes`. -/
def appendLoop (home : Option String) (cur : String) : List String → Option String
  | [] => some cur
  | p :: ps =>
    match expandPath home p with
    | none => none
    | some expanded =>
      appendLoop home
        (if strContains cur expanded then cur else cur ++ ":" ++ expanded) ps

/-- `apply_path_changes` (PATH is only written after both loops succeed). -/
def apply_path_changes (e : EnvMap) (env_state : EnvironmentState) : Option EnvMap :=
  let home := envVar e "HOME"
  let cur0 := (envVar e "PATH").getD ""
  match prependLoop home cur0 env_state.paths_prepend with
  | none => none
  | some cur1 =>
    match appendLoop home cur1 env_state.paths_append with
    | none => none
    | some cur2 => some (setEnvVar e "PATH" cur2)

/-- `apply_profile_environment`: no-op when inactive, otherwise PATH changes
followed by setting each variable. -/
def apply_profile_environment (e : EnvMap) (env_state : EnvironmentState) :
    Option EnvMap :=
  if env_state.active = false then some e
  else
    match apply_path_changes e env_state with
    | none => none
    | some e1 => some (env_state.vars.foldl (fun acc kv => setEnvVar acc kv.1 kv.2) e1)

/-- The removal loops of `remove_path_changes`, acting on the split PATH. -/
def removeLoop (home : Option String) (comps : List String) :
    List String → Option (List String)
  | [] => some comps
  | p :: ps =>
    match expandPath home p with
    | none => none
    | some expanded => removeLoop home (comps.filter (fun c => c ≠ expanded)) ps

/-- `remove_path_changes`. -/
def remove_path_changes (e : EnvMap) (env_state : EnvironmentState) : Option EnvMap :=
  let home := envVar e "HOME"
  let comps := splitColon ((envVar e "PATH").getD "")
  match removeLoop home comps env_state.paths_prepend with
  | none => none
  | some c1 =>
    match removeLoop home c1 env_state.paths_append with
    | none => none
    | some c2 => some (setEnvVar e "PATH" (joinColon c2))

/-- `clear_profile_environment`: reverse PATH changes, then remove each
profile variable. -/
def clear_profile_environment (e : EnvMap) (env_state : EnvironmentState) :
    Option EnvMap :=
  match remove_path_changes e env_state with
  | none => none
  | some e1 => some (env_state.vars.foldl (fun acc kv => removeEnvVar acc kv.1) e1)

/-! ## Shell-config marker (profile_switcher.rs, `update_shell_config`) -/

/-- The marker search pattern `"# ZSHRCMAN_PROFILE:"` as characters. -/
def markerHead : List Char := "# ZSHRCMAN_PROFILE:".toList

/-- The marker-removal step of `update_shell_config`: remove from the
first occurrence of the marker pattern through the next newline; if the
pattern is absent, or no newline follows it, the content is unchanged. -/
def removedMarkerChunk (content : List Char) : List Char :=
  match findSubIdx markerHead content with
  | some start =>
    match findChar '\n' (content.drop start) with
    | some e => content.take start ++ content.drop (start + e + 1)
    | none => content
  | none => content

/-- The `push('\n')` step of `update_shell_config`: nonempty content is
made to end in a newline. -/
def ensureTrailingNl (l : List Char) : List Char :=
  if l = [] then l
  else if l.getLast? = some '\n' then l
  else l ++ ['\n']

/-- `update_shell_config` on the file content, character level. -/
def updateShellConfigL (content : List Char) (profile : String) : List Char :=
  ensureTrailingNl (removedMarkerChunk content)
    ++ ("# ZSHRCMAN_PROFILE: " ++ profile).toList ++ ['\n']

/-- `update_shell_config` on strings. -/
def updateShellConfig (content : String) (profile : String) : String :=
  String.mk (updateShellConfigL content.toList profile)

/-! ## Profile switcher (src/modules/profile_switcher.rs) -/

/-- The world the profile switcher acts on: the state manager, the process
environment, the per-profile bin directories (name ↦ list of
(entry name, symlink target) — `update_active_binaries` and
`clear_profile_binaries` remove every file/symlink entry, which is all the
entries modelled), and the shell startup file (`none` = absent). -/
structure World where
  sm : InstallationStateManager
  env : EnvMap
  binDirs : List (String × List (String × String))
  shellConfig : Option String
deriving DecidableEq

/-- `get_profile_bin_dir`: `$HOME/.local/share/zshrcman/profiles/<p>/bin`. -/
def binDirPath (home profile : String) : String :=
  home ++ "/.local/share/zshrcman/profiles/" ++ profile ++ "/bin"

/-- `add_to_path`. -/
def addToPath (e : EnvMap) (dir : String) : EnvMap :=
  let current_path := (envVar e "PATH").getD ""
  if strContains current_path dir then e
  else setEnvVar e "PATH" (dir ++ ":" ++ current_path)

/-- `remove_from_path`. -/
def removeFromPath (e : EnvMap) (dir : String) : EnvMap :=
  let current_path := (envVar e "PATH").getD ""
  let paths := (splitColon current_path).filter (fun p => p ≠ dir)
  setEnvVar e "PATH" (joinColon paths)

/-- The environment effect of `activate_environment`: apply the profile's
environment, then push the profile bin directory onto PATH (the latter
needs `HOME`, read from the already-mutated environment). -/
def activateEnvironmentEnv (sm : InstallationStateManager) (e : EnvMap)
    (profile : String) : EnvMap × Option String :=
  match lookupL sm.profiles profile with
  | none => (e, none)
  | some profile_state =>
    match apply_profile_environment e profile_state.environment with
    | none => (e, some "HOME not set")
    | some e1 =>
      match envVar e1 "HOME" with
      | none => (e1, some "HOME not set")
      | some home => (addToPath e1 (binDirPath home profile), none)

/-- `activate_environment` on the world (only the environment changes). -/
def activate_environment (w : World) (profile : String) : World × Option String :=
  ({ w with env := (activateEnvironmentEnv w.sm w.env profile).1 },
   (activateEnvironmentEnv w.sm w.env profile).2)

/-- The environment effect of `deactivate_environment`: clear the profile's
environment, then drop the profile bin directory from PATH. -/
def deactivateEnvironmentEnv (sm : InstallationStateManager) (e : EnvMap)
    (profile : String) : EnvMap × Option String :=
  match lookupL sm.profiles profile with
  | none => (e, none)
  | some profile_state =>
    match clear_profile_environment e profile_state.environment with
    | none => (e, some "HOME not set")
    | some e1 =>
      match envVar e1 "HOME" with
      | none => (e1, some "HOME not set")
      | some home => (removeFromPath e1 (binDirPath home profile), none)

/-- `deactivate_environment` on the world (only the environment changes). -/
def deactivate_environment (w : World) (profile : String) : World × Option String :=
  ({ w with env := (deactivateEnvironmentEnv w.sm w.env profile).1 },
   (deactivateEnvironmentEnv w.sm w.env profile).2)

/-- The symlink-creation loop of `update_active_binaries`: one symlink per
active package that has a known location; creation fails if an entry of
that name already exists (partial work is kept). -/
def linkLoop (sm : InstallationStateManager) (entries : List (String × String)) :
    List String → List (String × String) × Option String
  | [] => (entries, none)
  | package :: rest =>
    match InstallationStateManager.get_package_info sm package with
    | some record =>
      match record.location with
      | some location =>
        if (lookupL entries package).isSome then (entries, some "File exists")
        else linkLoop sm (entries ++ [(package, location)]) rest
      | none => linkLoop sm entries rest
    | none => linkLoop sm entries rest

/-- The bin-directory effect of `update_active_binaries`: create the
profile's bin directory if missing, clear its file/symlink entries, then
link every active package with a known location. -/
def updateActiveBinariesDirs (sm : InstallationStateManager)
    (binDirs : List (String × List (String × String))) (profile : String) :
    List (String × List (String × String)) × Option String :=
  (insertL profile
      (linkLoop sm [] (InstallationStateManager.get_active_packages sm profile)).1
      (adjustL profile (fun _ => [])
        (if (lookupL binDirs profile).isSome then binDirs
         else insertL profile [] binDirs)),
   (linkLoop sm [] (InstallationStateManager.get_active_packages sm profile)).2)

/-- `update_active_binaries` on the world (needs `HOME` for the bin path;
only the bin directories change). -/
def update_active_binaries (w : World) (profile : String) : World × Option String :=
  match envVar w.env "HOME" with
  | none => (w, some "HOME not set")
  | some _ =>
    ({ w with binDirs := (updateActiveBinariesDirs w.sm w.binDirs profile).1 },
     (updateActiveBinariesDirs w.sm w.binDirs profile).2)

/-- `update_shell_config` on the world (reads the file if it exists, else
starts from empty content; always succeeds in the model). -/
def update_shell_config (w : World) (profile : String) : World :=
  { w with shellConfig := some (updateShellConfig (w.shellConfig.getD "") profile) }

/-- `clear_profile_binaries` on the world: if the profile bin directory
exists, remove its file/symlink entries (needs `HOME` for the path). -/
def clear_profile_binaries (w : World) (profile : String) : World × Option String :=
  match envVar w.env "HOME" with
  | none => (w, some "HOME not set")
  | some _ =>
    if (lookupL w.binDirs profile).isSome then
      ({ w with binDirs := adjustL profile (fun _ => []) w.binDirs }, none)
    else (w, none)

/-- `?`-propagation of the switcher: a failing step returns its error and
the world as mutated so far; the next step runs only on success. -/
def stepThen (r : World × Option String) (next : World → World × Option String) :
    World × Option String :=
  match r.2 with
  | some msg => (r.1, some msg)
  | none => next r.1

/-- `ProfileSwitcher::switch_profile`: the five-step sequence.  A failing
step aborts the remaining steps with no rollback of completed steps. -/
def switchProfileW (w : World) (new_profile : String) : World × Option String :=
  stepThen (match w.sm.active_profile with
            | some old => deactivate_environment w old
            | none => (w, none)) (fun w1 =>
  stepThen (match InstallationStateManager.switch_profile w1.sm new_profile with
            | Except.error msg => (w1, some msg)
            | Except.ok sm2 => ({ w1 with sm := sm2 }, none)) (fun w2 =>
  stepThen (activate_environment w2 new_profile) (fun w3 =>
  stepThen (update_active_binaries w3 new_profile) (fun w4 =>
  (update_shell_config w4 new_profile, none)))))

/-- `ProfileSwitcher::activate_profile`: steps 3-5 only. -/
def activateProfileW (w : World) (profile : String) : World × Option String :=
  stepThen (activate_environment w profile) (fun w3 =>
  stepThen (update_active_binaries w3 profile) (fun w4 =>
  (update_shell_config w4 profile, none)))

/-- `ProfileSwitcher::deactivate_current`: reverse the environment, clear
the bin directory, drop the active-profile pointer.  Note there is no
`save_state` call: the persisted snapshot keeps the old pointer. -/
def deactivateCurrentW (w : World) : World × Option String :=
  match w.sm.active_profile with
  | none => (w, none)
  | some profile =>
    stepThen (deactivate_environment w profile) (fun w1 =>
    stepThen (clear_profile_binaries w1 profile) (fun w2 =>
    ({ w2 with sm := { w2.sm with active_profile := none } }, none)))

/-! ## Profile deletion (src/main.rs, `ProfileCommands::Delete`) -/

/-- The `ProfileCommands::Delete` handler: deleting the active profile
bails out before any mutation; otherwise the profile is removed from the
in-memory registry, a fresh state manager is loaded from the persisted
snapshot, its registry is overwritten with the modified one, and the
result is saved. -/
def handleProfileDelete (s : InstallationStateManager) (name : String) :
    InstallationStateManager × Option String :=
  if s.active_profile = some name then
    (s, some "Cannot delete active profile. Switch to another profile first.")
  else
    let profiles2 := removeL name s.profiles
    let reloaded : InstallationStateManager :=
      { installations := s.config.installations, profiles := s.config.profiles,
        active_profile := s.config.active_profile, config := s.config }
    (InstallationStateManager.save_state { reloaded with profiles := profiles2 }, none)

/-! ## The registry symmetry invariant -/

open InstallationStateManager

/-- `f` is in the `active_for` set of `p`'s ledger record. -/
def memActiveFor (s : InstallationStateManager) (p f : String) : Prop :=
  ∃ r, lookupL s.installations p = some r ∧ f ∈ r.active_for

/-- `p` is in profile `f`'s package set. -/
def memPackages (s : InstallationStateManager) (f p : String) : Prop :=
  ∃ pr, lookupL s.profiles f = some pr ∧ p ∈ pr.packages

/-- The symmetry invariant: for every package `p` and profile `f`,
`f ∈ ledger[p].active_for ⟺ p ∈ profiles[f].packages`. -/
def SymInv (s : InstallationStateManager) : Prop :=
  ∀ p f, memActiveFor s p f ↔ memPackages s f p

/-- Boolean version of `memActiveFor`. -/
def memActiveForB (s : InstallationStateManager) (p f : String) : Bool :=
  match lookupL s.installations p with
  | some r => r.active_for.contains f
  | none => false

/-- Boolean version of `memPackages`. -/
def memPackagesB (s : InstallationStateManager) (f p : String) : Bool :=
  match lookupL s.profiles f with
  | some pr => pr.packages.contains p
  | none => false

theorem memActiveFor_iff (s : InstallationStateManager) (p f : String) :
    memActiveFor s p f ↔ memActiveForB s p f = true := by
  unfold memActiveFor memActiveForB
  cases h : lookupL s.installations p with
  | none => simp
  | some r => simp [List.contains_iff_exists_mem_beq, beq_iff_eq, eq_comm]

theorem memPackages_iff (s : InstallationStateManager) (f p : String) :
    memPackages s f p ↔ memPackagesB s f p = true := by
  unfold memPackages memPackagesB
  cases h : lookupL s.profiles f with
  | none => simp
  | some pr => simp [List.contains_iff_exists_mem_beq, beq_iff_eq, eq_comm]

/-- Executable check of `SymInv` over the finite support of the two maps. -/
def checkSymInv (s : InstallationStateManager) : Bool :=
  s.installations.all (fun e =>
    match lookupL s.installations e.1 with
    | some r => r.active_for.all (fun f => memPackagesB s f e.1)
    | none => true)
  && s.profiles.all (fun e =>
    match lookupL s.profiles e.1 with
    | some pr => pr.packages.all (fun p => memActiveForB s p e.1)
    | none => true)

theorem lookupL_mem {α : Type} (l : List (String × α)) (k : String) (v : α)
    (h : lookupL l k = some v) : (k, v) ∈ l := by
  induction l with
  | nil => simp [lookupL] at h
  | cons e t ih =>
    obtain ⟨k0, v0⟩ := e
    by_cases h0 : k0 = k
    · subst h0
      simp [lookupL] at h
      subst h
      exact List.mem_cons_self _ _
    · simp [lookupL, h0] at h
      exact List.mem_cons_of_mem _ (ih h)

theorem checkSymInv_sound (s : InstallationStateManager)
    (h : checkSymInv s = true) : SymInv s := by
  unfold checkSymInv at h
  rw [Bool.and_eq_true] at h
  obtain ⟨hinst, hprof⟩ := h
  rw [List.all_eq_true] at hinst hprof
  intro p f
  constructor
  · intro hmem
    obtain ⟨r, hr, hf⟩ := hmem
    have hm : (p, r) ∈ s.installations := lookupL_mem _ _ _ hr
    have := hinst (p, r) hm
    simp only [hr] at this
    rw [List.all_eq_true] at this
    have hb := this f hf
    exact (memPackages_iff s f p).mpr hb
  · intro hmem
    obtain ⟨pr, hpr, hp⟩ := hmem
    have hm : (f, pr) ∈ s.profiles := lookupL_mem _ _ _ hpr
    have := hprof (f, pr) hm
    simp only [hpr] at this
    rw [List.all_eq_true] at this
    have hb := this p hp
    exact (memActiveFor_iff s p f).mpr hb

/-! ## Frame and preservation lemmas for the state manager -/

theorem save_state_installations (s : InstallationStateManager) :
    (save_state s).installations = s.installations := rfl

theorem save_state_profiles (s : InstallationStateManager) :
    (save_state s).profiles = s.profiles := rfl

theorem save_state_active (s : InstallationStateManager) :
    (save_state s).active_profile = s.active_profile := rfl

theorem deactivate_none (s : InstallationStateManager) (p : String)
    (hact : s.active_profile = none) : deactivate_for_profile s p = s := by
  unfold deactivate_for_profile; rw [hact]

theorem deactivate_installations (s : InstallationStateManager) (p f : String)
    (hact : s.active_profile = some f) :
    (deactivate_for_profile s p).installations =
      adjustL p (fun r => { r with active_for := removeS f r.active_for })
        s.installations := by
  unfold deactivate_for_profile; rw [hact]; rfl

theorem deactivate_profiles (s : InstallationStateManager) (p f : String)
    (hact : s.active_profile = some f) :
    (deactivate_for_profile s p).profiles =
      adjustL f (fun pr => { pr with packages := removeS p pr.packages })
        s.profiles := by
  unfold deactivate_for_profile; rw [hact]; rfl

theorem memAF_adjust_removeS (inst : List (String × InstallationRecord)) (p f q g : String) :
    (∃ r', lookupL (adjustL p (fun r => { r with active_for := removeS f r.active_for }) inst) q
        = some r' ∧ g ∈ r'.active_for)
    ↔ ((∃ r, lookupL inst q = some r ∧ g ∈ r.active_for) ∧ ¬(q = p ∧ g = f)) := by
  rw [lookupL_adjustL]
  by_cases hq : q = p
  · subst hq
    rw [if_pos rfl]
    cases hl : lookupL inst q with
    | none => simp
    | some r => simp [mem_removeS, and_assoc]
  · rw [if_neg hq]
    simp [hq]

theorem memPK_adjust_removeS (profs : List (String × Profile)) (p f q g : String) :
    (∃ pr', lookupL (adjustL f (fun pr => { pr with packages := removeS p pr.packages }) profs) g
        = some pr' ∧ q ∈ pr'.packages)
    ↔ ((∃ pr, lookupL profs g = some pr ∧ q ∈ pr.packages) ∧ ¬(g = f ∧ q = p)) := by
  rw [lookupL_adjustL]
  by_cases hg : g = f
  · subst hg
    rw [if_pos rfl]
    cases hl : lookupL profs g with
    | none => simp
    | some pr => simp [mem_removeS, and_assoc]
  · rw [if_neg hg]
    simp [hg]

theorem symInv_deactivate (s : InstallationStateManager) (hInv : SymInv s) (p : String) :
    SymInv (deactivate_for_profile s p) := by
  cases hact : s.active_profile with
  | none => rw [deactivate_none s p hact]; exact hInv
  | some f =>
    intro q g
    unfold memActiveFor memPackages
    rw [deactivate_installations s p f hact, deactivate_profiles s p f hact]
    rw [memAF_adjust_removeS, memPK_adjust_removeS]
    have h0 := hInv q g
    unfold memActiveFor memPackages at h0
    constructor
    · rintro ⟨ha, hnot⟩
      refine ⟨h0.mp ha, ?_⟩
      rintro ⟨h1, h2⟩
      exact hnot ⟨h2, h1⟩
    · rintro ⟨ha, hnot⟩
      refine ⟨h0.mpr ha, ?_⟩
      rintro ⟨h1, h2⟩
      exact hnot ⟨h2, h1⟩

theorem uninstall_installations (s : InstallationStateManager) (p : String) :
    (perform_uninstallation s p).installations = removeL p s.installations := rfl

theorem uninstall_profiles (s : InstallationStateManager) (p : String) :
    (perform_uninstallation s p).profiles = s.profiles := rfl

theorem usage_zero_no_active (s : InstallationStateManager) (p : String)
    (h : get_usage_count s p = 0) : ∀ g, ¬ memActiveFor s p g := by
  rintro g ⟨r, hr, hg⟩
  unfold get_usage_count at h
  rw [hr] at h
  simp only [List.length_eq_zero] at h
  rw [h] at hg
  simp at hg

theorem symInv_uninstall_of_unused (s : InstallationStateManager) (p : String)
    (hInv : SymInv s) (hun : ∀ g, ¬ memActiveFor s p g) :
    SymInv (perform_uninstallation s p) := by
  intro q g
  unfold memActiveFor memPackages
  rw [uninstall_installations, uninstall_profiles, lookupL_removeL]
  by_cases hq : q = p
  · subst hq
    rw [if_pos rfl]
    constructor
    · rintro ⟨r, hr, _⟩; exact absurd hr (by simp)
    · rintro hpk
      exact absurd ((hInv q g).mpr hpk) (hun g)
  · rw [if_neg hq]
    exact hInv q g

theorem lookupL_map_pkgs (l : List (String × Profile)) (p k : String) :
    lookupL (l.map (fun e => (e.1, { e.2 with packages := removeS p e.2.packages }))) k
      = (lookupL l k).map (fun pr => { pr with packages := removeS p pr.packages }) := by
  induction l with
  | nil => simp
  | cons e t ih =>
    obtain ⟨k0, v0⟩ := e
    by_cases h0 : k0 = k
    · subst h0; simp [lookupL]
    · simp [lookupL, h0, ih]

theorem forceRemove_installations (s : InstallationStateManager) (p : String) :
    (remove_from_all_profiles (perform_uninstallation s p) p).installations
      = removeL p s.installations := rfl

theorem forceRemove_profiles (s : InstallationStateManager) (p : String) :
    (remove_from_all_profiles (perform_uninstallation s p) p).profiles
      = s.profiles.map (fun e => (e.1, { e.2 with packages := removeS p e.2.packages })) := rfl

theorem symInv_forceRemove (s : InstallationStateManager) (p : String)
    (hInv : SymInv s) :
    SymInv (remove_from_all_profiles (perform_uninstallation s p) p) := by
  intro q g
  unfold memActiveFor memPackages
  rw [forceRemove_installations, forceRemove_profiles, lookupL_removeL, lookupL_map_pkgs]
  by_cases hq : q = p
  · subst hq
    rw [if_pos rfl]
    constructor
    · rintro ⟨r, hr, _⟩; exact absurd hr (by simp)
    · rintro ⟨pr', hpr', hq2⟩
      cases hl : lookupL s.profiles g with
      | none => rw [hl] at hpr'; simp at hpr'
      | some pr =>
        rw [hl] at hpr'
        simp only [Option.map_some'] at hpr'
        cases hpr'.symm
        rw [mem_removeS] at hq2
        exact absurd rfl hq2.2
  · rw [if_neg hq]
    cases hl : lookupL s.profiles g with
    | none =>
      simp only [Option.map_none']
      have h0 := hInv q g
      unfold memActiveFor memPackages at h0
      rw [hl] at h0
      simpa using h0
    | some pr =>
      simp only [Option.map_some']
      have h0 := hInv q g
      unfold memActiveFor memPackages at h0
      rw [hl] at h0
      constructor
      · intro ha
        refine ⟨_, rfl, ?_⟩
        rcases h0.mp ha with ⟨pr2, hpr2, hmem⟩
        cases hpr2.symm
        rw [mem_removeS]
        exact ⟨hmem, hq⟩
      · rintro ⟨pr', hpr', hmem⟩
        cases hpr'.symm
        rw [mem_removeS] at hmem
        exact h0.mpr ⟨pr, rfl, hmem.1⟩

theorem rfpl_installations (s : InstallationStateManager) (p : String) :
    (remove_from_profile_list s p).installations = s.installations := by
  unfold remove_from_profile_list
  cases hact : s.active_profile with
  | none => rfl
  | some f => rfl

theorem rfpl_active (s : InstallationStateManager) (p : String) :
    (remove_from_profile_list s p).active_profile = s.active_profile := by
  unfold remove_from_profile_list
  cases hact : s.active_profile with
  | none => exact hact
  | some f => rfl

theorem rfpl_profiles_none (s : InstallationStateManager) (p : String)
    (hact : s.active_profile = none) :
    (remove_from_profile_list s p).profiles = s.profiles := by
  unfold remove_from_profile_list; rw [hact]; rfl

theorem rfpl_profiles_some (s : InstallationStateManager) (p f : String)
    (hact : s.active_profile = some f) :
    (remove_from_profile_list s p).profiles =
      adjustL f (fun pr => { pr with packages := removeS p pr.packages }) s.profiles := by
  unfold remove_from_profile_list; rw [hact]; rfl

theorem used_by_rfpl (s : InstallationStateManager) (p : String) :
    used_by_other_profiles (remove_from_profile_list s p) p
      = used_by_other_profiles s p := by
  unfold used_by_other_profiles
  rw [rfpl_installations, rfpl_active]

theorem symInv_removeFromProfile (s : InstallationStateManager) (p : String)
    (hInv : SymInv s) (hO : used_by_other_profiles s p = false) :
    SymInv (handle_removal s p RemovalStrategy.RemoveFromProfile).1 := by
  have hred : (handle_removal s p RemovalStrategy.RemoveFromProfile).1
      = (if used_by_other_profiles (remove_from_profile_list s p) p = true
         then (remove_from_profile_list s p, (none : Option Nat))
         else (deactivate_for_profile (remove_from_profile_list s p) p, none)).1 := rfl
  rw [hred, used_by_rfpl, hO]
  show SymInv (deactivate_for_profile (remove_from_profile_list s p) p)
  cases hact : s.active_profile with
  | none =>
    have h1 : (remove_from_profile_list s p).active_profile = none := by
      rw [rfpl_active]; exact hact
    rw [deactivate_none _ p h1]
    intro q g
    unfold memActiveFor memPackages
    rw [rfpl_installations, rfpl_profiles_none s p hact]
    exact hInv q g
  | some f =>
    have h1 : (remove_from_profile_list s p).active_profile = some f := by
      rw [rfpl_active]; exact hact
    intro q g
    unfold memActiveFor memPackages
    rw [deactivate_installations _ p f h1, deactivate_profiles _ p f h1]
    rw [rfpl_installations, rfpl_profiles_some s p f hact]
    rw [memAF_adjust_removeS]
    have hPK : (∃ pr', lookupL (adjustL f (fun pr => { pr with packages := removeS p pr.packages })
        (adjustL f (fun pr => { pr with packages := removeS p pr.packages }) s.profiles)) g
        = some pr' ∧ q ∈ pr'.packages)
        ↔ ((∃ pr, lookupL s.profiles g = some pr ∧ q ∈ pr.packages) ∧ ¬(g = f ∧ q = p)) := by
      rw [memPK_adjust_removeS, memPK_adjust_removeS]
      tauto
    rw [hPK]
    have h0 := hInv q g
    unfold memActiveFor memPackages at h0
    constructor
    · rintro ⟨ha, hnot⟩
      exact ⟨h0.mp ha, by tauto⟩
    · rintro ⟨ha, hnot⟩
      exact ⟨h0.mpr ha, by tauto⟩

theorem activate_none (s : InstallationStateManager) (p : String)
    (hact : s.active_profile = none) : activate_for_profile s p = s := by
  unfold activate_for_profile; rw [hact]

theorem activate_installations (s : InstallationStateManager) (p f : String)
    (hact : s.active_profile = some f) :
    (activate_for_profile s p).installations =
      adjustL p (fun r => { r with active_for := insertS f r.active_for })
        s.installations := by
  unfold activate_for_profile; rw [hact]; rfl

theorem activate_profiles (s : InstallationStateManager) (p f : String)
    (hact : s.active_profile = some f) :
    (activate_for_profile s p).profiles =
      adjustL f (fun pr => { pr with packages := insertS p pr.packages })
        s.profiles := by
  unfold activate_for_profile; rw [hact]; rfl

theorem activate_active (s : InstallationStateManager) (p : String) :
    (activate_for_profile s p).active_profile = s.active_profile := by
  unfold activate_for_profile
  cases hact : s.active_profile with
  | none => exact hact
  | some f => rfl

theorem symInv_activate (s : InstallationStateManager) (p : String)
    (hInv : SymInv s) (hinst : is_installed s p = true)
    (hpid : ∀ f, s.active_profile = some f → (lookupL s.profiles f).isSome = true) :
    SymInv (activate_for_profile s p) := by
  cases hact : s.active_profile with
  | none => rw [activate_none s p hact]; exact hInv
  | some f =>
    obtain ⟨r0, hr0⟩ : ∃ r, lookupL s.installations p = some r := by
      unfold is_installed at hinst
      cases hl : lookupL s.installations p with
      | none => rw [hl] at hinst; simp at hinst
      | some r => exact ⟨r, rfl⟩
    obtain ⟨pr0, hpr0⟩ : ∃ pr, lookupL s.profiles f = some pr := by
      have := hpid f hact
      cases hl : lookupL s.profiles f with
      | none => rw [hl] at this; simp at this
      | some pr => exact ⟨pr, rfl⟩
    intro q g
    unfold memActiveFor memPackages
    rw [activate_installations s p f hact, activate_profiles s p f hact]
    rw [lookupL_adjustL, lookupL_adjustL]
    have h0 := hInv q g
    unfold memActiveFor memPackages at h0
    by_cases hq : q = p
    · subst hq
      rw [if_pos rfl, hr0]
      by_cases hg : g = f
      · subst hg
        rw [if_pos rfl, hpr0]
        simp [mem_insertS]
      · rw [if_neg hg]
        simp only [Option.map_some']
        constructor
        · rintro ⟨r', hr', hmem⟩
          cases hr'.symm
          rw [mem_insertS] at hmem
          rcases hmem with rfl | hmem
          · exact absurd rfl hg
          · exact h0.mp ⟨r0, hr0, hmem⟩
        · intro hpk
          refine ⟨_, rfl, ?_⟩
          rw [mem_insertS]
          rcases h0.mpr hpk with ⟨r2, hr2, hmem⟩
          rw [hr0] at hr2
          cases hr2
          exact Or.inr hmem
    · rw [if_neg hq]
      by_cases hg : g = f
      · subst hg
        rw [if_pos rfl, hpr0]
        simp only [Option.map_some']
        constructor
        · intro ha
          refine ⟨_, rfl, ?_⟩
          rw [mem_insertS]
          rcases h0.mp ha with ⟨pr2, hpr2, hmem⟩
          rw [hpr0] at hpr2
          cases hpr2
          exact Or.inr hmem
        · rintro ⟨pr', hpr', hmem⟩
          cases hpr'.symm
          rw [mem_insertS] at hmem
          rcases hmem with rfl | hmem
          · exact absurd rfl hq
          · exact h0.mpr ⟨pr0, hpr0, hmem⟩
      · rw [if_neg hg]
        exact h0

theorem install_installations (now : Nat) (s : InstallationStateManager) (p : String)
    (scope : InstallScope) :
    (perform_installation now s p scope).installations =
      insertL p
        { package := p, version := none, installed_at := now,
          installed_by := InstallationSource.Profile (s.active_profile.getD "default"),
          active_for := [s.active_profile.getD "default"], scope := scope,
          location := none, installer_type := "auto" } s.installations := rfl

theorem install_profiles (now : Nat) (s : InstallationStateManager) (p : String)
    (scope : InstallScope) :
    (perform_installation now s p scope).profiles =
      adjustL (s.active_profile.getD "default")
        (fun pr => { pr with packages := insertS p pr.packages }) s.profiles := rfl

theorem symInv_install (now : Nat) (s : InstallationStateManager) (p : String)
    (scope : InstallScope) (hInv : SymInv s)
    (hni : lookupL s.installations p = none)
    (hpid : (lookupL s.profiles (s.active_profile.getD "default")).isSome = true) :
    SymInv (perform_installation now s p scope) := by
  set pid := s.active_profile.getD "default" with hpidDef
  obtain ⟨pr0, hpr0⟩ : ∃ pr, lookupL s.profiles pid = some pr := by
    cases hl : lookupL s.profiles pid with
    | none => rw [hl] at hpid; simp at hpid
    | some pr => exact ⟨pr, rfl⟩
  intro q g
  unfold memActiveFor memPackages
  rw [install_installations, install_profiles, lookupL_insertL, lookupL_adjustL]
  have h0 := hInv q g
  unfold memActiveFor memPackages at h0
  by_cases hq : p = q
  · subst hq
    rw [if_pos rfl]
    by_cases hg : g = pid
    · subst hg
      rw [if_pos rfl, hpr0]
      simp [mem_insertS]
    · rw [if_neg hg]
      constructor
      · rintro ⟨r', hr', hmem⟩
        cases hr'.symm
        simp only [List.mem_singleton] at hmem
        exact absurd hmem hg
      · intro hpk
        have := h0.mpr hpk
        rcases this with ⟨r, hr, _⟩
        rw [hni] at hr
        cases hr
  · rw [if_neg hq]
    by_cases hg : g = pid
    · subst hg
      rw [if_pos rfl, hpr0]
      simp only [Option.map_some']
      constructor
      · intro ha
        refine ⟨_, rfl, ?_⟩
        rw [mem_insertS]
        rcases h0.mp ha with ⟨pr2, hpr2, hmem⟩
        rw [hpr0] at hpr2
        cases hpr2
        exact Or.inr hmem
      · rintro ⟨pr', hpr', hmem⟩
        cases hpr'.symm
        rw [mem_insertS] at hmem
        rcases hmem with rfl | hmem
        · exact absurd rfl (fun h => hq h.symm)
        · exact h0.mpr ⟨pr0, hpr0, hmem⟩
    · rw [if_neg hg]
      exact h0

theorem create_profile_profiles (s : InstallationStateManager) (n : String)
    (parent : Option String) :
    (create_profile s n parent).profiles =
      insertL n { name := n, parent := parent, packages := [],
                  environment := defaultEnvironmentState, os_overrides := [] }
        s.profiles := rfl

theorem create_profile_installations (s : InstallationStateManager) (n : String)
    (parent : Option String) :
    (create_profile s n parent).installations = s.installations := rfl

theorem create_profile_active (s : InstallationStateManager) (n : String)
    (parent : Option String) :
    (create_profile s n parent).active_profile = s.active_profile := rfl

theorem symInv_create (s : InstallationStateManager) (n : String) (parent : Option String)
    (hInv : SymInv s) (hNoRef : ∀ q, ¬ memActiveFor s q n) :
    SymInv (create_profile s n parent) := by
  intro q g
  unfold memActiveFor memPackages
  rw [create_profile_installations, create_profile_profiles, lookupL_insertL]
  have h0 := hInv q g
  unfold memActiveFor memPackages at h0
  by_cases hg : n = g
  · subst hg
    rw [if_pos rfl]
    constructor
    · intro ha
      exact absurd ha (hNoRef q)
    · rintro ⟨pr', hpr', hmem⟩
      cases hpr'.symm
      simp at hmem
  · rw [if_neg hg]
    exact h0

theorem switch_profile_ok (s : InstallationStateManager) (n : String)
    (s' : InstallationStateManager)
    (h : switch_profile s n = Except.ok s') :
    s' = save_state { s with active_profile := some n }
      ∧ (lookupL s.profiles n).isSome = true := by
  unfold switch_profile at h
  by_cases hc : (lookupL s.profiles n).isSome = true
  · rw [if_pos hc] at h
    cases h
    exact ⟨rfl, hc⟩
  · rw [if_neg hc] at h
    cases h

theorem symInv_switch (s : InstallationStateManager) (n : String)
    (s' : InstallationStateManager) (hInv : SymInv s)
    (h : switch_profile s n = Except.ok s') : SymInv s' := by
  obtain ⟨rfl, -⟩ := switch_profile_ok s n s' h
  exact hInv

/-! ## Concrete states used by counterexamples and witnesses -/

/-- Ledger record for package `"p"`, active for profiles `"work"` and `"other"`. -/
def recPWorkOther : InstallationRecord :=
  { package := "p", version := none, installed_at := 0,
    installed_by := InstallationSource.Profile "work",
    active_for := ["work", "other"], scope := InstallScope.Global,
    location := none, installer_type := "auto" }

/-- Profile `"work"` owning package `"p"`. -/
def profWork : Profile :=
  { name := "work", parent := none, packages := ["p"],
    environment := defaultEnvironmentState, os_overrides := [] }

/-- Profile `"other"` owning package `"p"`. -/
def profOther : Profile :=
  { name := "other", parent := none, packages := ["p"],
    environment := defaultEnvironmentState, os_overrides := [] }

/-- A state where `"p"` is installed for both `"work"` (active) and
`"other"`; the symmetry invariant holds and the snapshot is in sync. -/
def stateC1 : InstallationStateManager :=
  { installations := [("p", recPWorkOther)]
    profiles := [("work", profWork), ("other", profOther)]
    active_profile := some "work"
    config := { installations := [("p", recPWorkOther)]
                profiles := [("work", profWork), ("other", profOther)]
                active_profile := some "work" } }

/-- C1 counterexample: the symmetry invariant holds in `stateC1`, but after
`handle_removal("p", RemoveFromProfile)` — which removes `"p"` from the
active profile's package set yet, because profile `"other"` still
references it, does not touch `active_for` — profile `"work"` is still in
`ledger["p"].active_for` while `"p"` is no longer in
`profiles["work"].packages`. -/
theorem c1_counterexample :
    SymInv stateC1
    ∧ ¬ SymInv (handle_removal stateC1 "p" RemovalStrategy.RemoveFromProfile).1 := by
  constructor
  · exact checkSymInv_sound _ (by decide)
  · intro h
    have h2 := (h "p" "work").mp
      ((memActiveFor_iff _ "p" "work").mpr (by decide))
    have h3 := (memPackages_iff _ "work" "p").mp h2
    exact absurd h3 (by decide)

/-- C1 (amended): the symmetry invariant `f ∈ ledger[p].active_for ⟺
p ∈ profiles[f].packages` is preserved by `handle_removal` with
`Deactivate`, `MarkUnused` and `ForceRemove`; by `SmartRemove` when the
package's reference count is not exactly 1; by `RemoveFromProfile` when no
other profile still references the package; by `smart_install` when the
profile identity it uses (the active profile, or `"default"` when none is
active) exists in the registry; by `create_profile` when no ledger record
lists the new name in its `active_for`; and by `switch_profile`.  (The
excluded cases do break it, see the counterexample.) -/
theorem c1_theorem (s : InstallationStateManager) (hInv : SymInv s) :
    (∀ p, SymInv (handle_removal s p RemovalStrategy.Deactivate).1)
    ∧ (∀ p, SymInv (handle_removal s p RemovalStrategy.MarkUnused).1)
    ∧ (∀ p, SymInv (handle_removal s p RemovalStrategy.ForceRemove).1)
    ∧ (∀ p, get_usage_count s p ≠ 1 →
        SymInv (handle_removal s p RemovalStrategy.SmartRemove).1)
    ∧ (∀ p, used_by_other_profiles s p = false →
        SymInv (handle_removal s p RemovalStrategy.RemoveFromProfile).1)
    ∧ (∀ now p scope, (lookupL s.profiles (s.active_profile.getD "default")).isSome = true →
        SymInv (smart_install now s p scope).1)
    ∧ (∀ n parent, (∀ q, ¬ memActiveFor s q n) → SymInv (create_profile s n parent))
    ∧ (∀ n s', switch_profile s n = Except.ok s' → SymInv s') := by
  refine ⟨?_, ?_, ?_, ?_, ?_, ?_, ?_, ?_⟩
  · exact fun p => symInv_deactivate s hInv p
  · exact fun p => symInv_deactivate s hInv p
  · exact fun p => symInv_forceRemove s p hInv
  · intro p hne
    have hred : (handle_removal s p RemovalStrategy.SmartRemove).1
        = (if get_usage_count s p ≤ 1
           then (perform_uninstallation s p, (none : Option Nat))
           else (deactivate_for_profile s p, some (get_usage_count s p - 1))).1 := rfl
    rcases Nat.lt_or_ge 1 (get_usage_count s p) with hgt | hle
    · have hnle : ¬ (get_usage_count s p ≤ 1) := by omega
      rw [hred, if_neg hnle]
      exact symInv_deactivate s hInv p
    · have h0 : get_usage_count s p = 0 := by omega
      have hle' : get_usage_count s p ≤ 1 := by omega
      rw [hred, if_pos hle']
      exact symInv_uninstall_of_unused s p hInv (usage_zero_no_active s p h0)
  · exact fun p hO => symInv_removeFromProfile s p hInv hO
  · intro now p scope hpid
    by_cases hi : is_installed s p = true
    · have hred : (smart_install now s p scope).1 = activate_for_profile s p := by
        unfold smart_install; rw [if_pos hi]
      rw [hred]
      refine symInv_activate s p hInv hi ?_
      intro f hf
      rw [hf] at hpid
      simpa using hpid
    · have hni : lookupL s.installations p = none := by
        unfold is_installed at hi
        cases hl : lookupL s.installations p with
        | none => rfl
        | some r => rw [hl] at hi; simp at hi
      have hi2 : is_installed s p = false := by
        unfold is_installed; rw [hni]; rfl
      have hred : (smart_install now s p scope).1 = perform_installation now s p scope := by
        unfold smart_install; rw [hi2]; rfl
      rw [hred]
      exact symInv_install now s p scope hInv hni hpid
  · exact fun n parent hNoRef => symInv_create s n parent hInv hNoRef
  · exact fun n s' h => symInv_switch s n s' hInv h

/-- C1 witness: the amended invariant-preservation theorem applied to the
concrete state `stateC1`. -/
theorem c1_witness :
    SymInv (handle_removal stateC1 "p" RemovalStrategy.Deactivate).1
    ∧ SymInv (create_profile stateC1 "fresh" none) := by
  have h := c1_theorem stateC1 (checkSymInv_sound _ (by decide))
  refine ⟨h.1 "p", ?_⟩
  apply h.2.2.2.2.2.2.1 "fresh" none
  intro q hq
  rw [memActiveFor_iff] at hq
  by_cases hqp : ("p" : String) = q
  · rw [← hqp] at hq
    exact absurd hq (by decide)
  · unfold memActiveForB stateC1 at hq
    simp only [lookupL_cons, if_neg hqp, lookupL_nil] at hq
    cases hq

/-- Empty profile `"c"`. -/
def profC : Profile :=
  { name := "c", parent := none, packages := [],
    environment := defaultEnvironmentState, os_overrides := [] }

/-- Like `stateC1` but the active profile `"c"` is not in `"p"`'s
`active_for` set. -/
def stateC2 : InstallationStateManager :=
  { installations := [("p", recPWorkOther)]
    profiles := [("work", profWork), ("other", profOther), ("c", profC)]
    active_profile := some "c"
    config := { installations := [("p", recPWorkOther)]
                profiles := [("work", profWork), ("other", profOther), ("c", profC)]
                active_profile := some "c" } }

/-- C2 counterexample: in `stateC2` the installed package `"p"` has
`active_for = {"work","other"}` (size 2) and the active profile is `"c"`.
`handle_removal("p", SmartRemove)` reports a remaining reference count of
1 (`usage_count - 1`), yet the record is unchanged and the actual
remaining reference count is 2 — the reported number is not the remaining
reference count. -/
theorem c2_counterexample :
    (handle_removal stateC2 "p" RemovalStrategy.SmartRemove).2 = some 1
    ∧ lookupL (handle_removal stateC2 "p" RemovalStrategy.SmartRemove).1.installations "p"
        = some recPWorkOther
    ∧ recPWorkOther.active_for.length = 2 := by
  refine ⟨by decide, by decide, by decide⟩

/-- C2 (amended): for an installed package `p` with record `r`,
`SmartRemove` counts `r.active_for`: if the count is at most 1 the ledger
entry for `p` is deleted (other entries and all profiles untouched);
otherwise `p` stays in the ledger, the current active profile (when one
is active; nothing when none is) is removed from `p`'s `active_for` and
from that profile's package set, and `|active_for| - 1` — the pre-removal
count minus one, which equals the remaining reference count exactly when
the current profile was in `active_for` — is reported. -/
theorem c2_theorem (s : InstallationStateManager) (p : String) (r : InstallationRecord)
    (hr : lookupL s.installations p = some r) :
    (r.active_for.length ≤ 1 →
       (handle_removal s p RemovalStrategy.SmartRemove).2 = none
       ∧ lookupL (handle_removal s p RemovalStrategy.SmartRemove).1.installations p = none
       ∧ (∀ q, q ≠ p →
           lookupL (handle_removal s p RemovalStrategy.SmartRemove).1.installations q
             = lookupL s.installations q)
       ∧ (handle_removal s p RemovalStrategy.SmartRemove).1.profiles = s.profiles)
    ∧ (2 ≤ r.active_for.length →
       (handle_removal s p RemovalStrategy.SmartRemove).2 = some (r.active_for.length - 1)
       ∧ (s.active_profile = none → (handle_removal s p RemovalStrategy.SmartRemove).1 = s)
       ∧ (∀ f, s.active_profile = some f →
           lookupL (handle_removal s p RemovalStrategy.SmartRemove).1.installations p
             = some { r with active_for := removeS f r.active_for }
           ∧ (∀ q, q ≠ p →
               lookupL (handle_removal s p RemovalStrategy.SmartRemove).1.installations q
                 = lookupL s.installations q)
           ∧ (∀ pr, lookupL s.profiles f = some pr →
               lookupL (handle_removal s p RemovalStrategy.SmartRemove).1.profiles f
                 = some { pr with packages := removeS p pr.packages })
           ∧ (∀ g, g ≠ f →
               lookupL (handle_removal s p RemovalStrategy.SmartRemove).1.profiles g
                 = lookupL s.profiles g))) := by
  have huc : get_usage_count s p = r.active_for.length := by
    unfold get_usage_count; rw [hr]
  have hred1 : (handle_removal s p RemovalStrategy.SmartRemove).1
      = (if get_usage_count s p ≤ 1
         then (perform_uninstallation s p, (none : Option Nat))
         else (deactivate_for_profile s p, some (get_usage_count s p - 1))).1 := rfl
  have hred2 : (handle_removal s p RemovalStrategy.SmartRemove).2
      = (if get_usage_count s p ≤ 1
         then (perform_uninstallation s p, (none : Option Nat))
         else (deactivate_for_profile s p, some (get_usage_count s p - 1))).2 := rfl
  constructor
  · intro hle
    have hle' : get_usage_count s p ≤ 1 := by omega
    rw [hred1, hred2, if_pos hle']
    refine ⟨rfl, ?_, ?_, rfl⟩
    · show lookupL (perform_uninstallation s p).installations p = none
      rw [uninstall_installations, lookupL_removeL, if_pos rfl]
    · intro q hq
      show lookupL (perform_uninstallation s p).installations q = lookupL s.installations q
      rw [uninstall_installations, lookupL_removeL, if_neg hq]
  · intro hge
    have hnle : ¬ (get_usage_count s p ≤ 1) := by omega
    rw [hred1, hred2, if_neg hnle]
    refine ⟨by rw [huc], ?_, ?_⟩
    · intro hact
      show deactivate_for_profile s p = s
      exact deactivate_none s p hact
    · intro f hact
      refine ⟨?_, ?_, ?_, ?_⟩
      · show lookupL (deactivate_for_profile s p).installations p = _
        rw [deactivate_installations s p f hact, lookupL_adjustL, if_pos rfl, hr]
        rfl
      · intro q hq
        show lookupL (deactivate_for_profile s p).installations q = _
        rw [deactivate_installations s p f hact, lookupL_adjustL, if_neg hq]
      · intro pr hpr
        show lookupL (deactivate_for_profile s p).profiles f = _
        rw [deactivate_profiles s p f hact, lookupL_adjustL, if_pos rfl, hpr]
        rfl
      · intro g hg
        show lookupL (deactivate_for_profile s p).profiles g = _
        rw [deactivate_profiles s p f hact, lookupL_adjustL, if_neg hg]

/-- C2 witness: in `stateC1` (active profile `"work"`, reference count 2)
`SmartRemove` keeps the ledger entry, removes `"work"` from `active_for`,
and reports 1. -/
theorem c2_witness :
    (handle_removal stateC1 "p" RemovalStrategy.SmartRemove).2 = some 1
    ∧ lookupL (handle_removal stateC1 "p" RemovalStrategy.SmartRemove).1.installations "p"
        = some { recPWorkOther with active_for := removeS "work" recPWorkOther.active_for } := by
  have h := c2_theorem stateC1 "p" recPWorkOther (by decide)
  have h2 := h.2 (by decide)
  exact ⟨h2.1, (h2.2.2 "work" rfl).1⟩

/-- Like `stateC1` but with no active profile. -/
def stateC4 : InstallationStateManager :=
  { installations := [("p", recPWorkOther)]
    profiles := [("work", profWork), ("other", profOther)]
    active_profile := none
    config := { installations := [("p", recPWorkOther)]
                profiles := [("work", profWork), ("other", profOther)]
                active_profile := none } }

/-- C4 counterexample: `"p"` is already in the ledger of `stateC4` and no
profile is active.  `smart_install` takes the activate path but changes
nothing at all — in particular no `"default"` identity is added to
`active_for`, contradicting the claim's "or a default identity if no
profile is active". -/
theorem c4_counterexample :
    (smart_install 0 stateC4 "p" InstallScope.Global).1 = stateC4
    ∧ (smart_install 0 stateC4 "p" InstallScope.Global).2 = false
    ∧ ¬ memActiveFor (smart_install 0 stateC4 "p" InstallScope.Global).1 "p" "default" := by
  refine ⟨by decide, by decide, ?_⟩
  intro h
  rw [memActiveFor_iff] at h
  exact absurd h (by decide)

/-- C4 (amended): for a state in which `p` is already in the ledger,
`smart_install(p, scope)` invokes no installer and creates no new ledger
entry; when a profile is active it adds that profile to `p`'s `active_for`
set and (if the profile exists in the registry) `p` to its package set;
when no profile is active the call is a complete no-op (the `"default"`
identity is used only on the fresh-install path). -/
theorem c4_theorem (now : Nat) (s : InstallationStateManager) (p : String)
    (scope : InstallScope) (hi : is_installed s p = true) :
    (s.active_profile = none → smart_install now s p scope = (s, false))
    ∧ (∀ f, s.active_profile = some f →
        (smart_install now s p scope).2 = false
        ∧ (smart_install now s p scope).1.active_profile = s.active_profile
        ∧ (∀ r, lookupL s.installations p = some r →
            lookupL (smart_install now s p scope).1.installations p
              = some { r with active_for := insertS f r.active_for })
        ∧ (∀ q, q ≠ p →
            lookupL (smart_install now s p scope).1.installations q
              = lookupL s.installations q)
        ∧ (∀ pr, lookupL s.profiles f = some pr →
            lookupL (smart_install now s p scope).1.profiles f
              = some { pr with packages := insertS p pr.packages })
        ∧ (∀ g, g ≠ f →
            lookupL (smart_install now s p scope).1.profiles g
              = lookupL s.profiles g)) := by
  have hred : smart_install now s p scope = (activate_for_profile s p, false) := by
    unfold smart_install; rw [if_pos hi]
  rw [hred]
  constructor
  · intro hact
    rw [activate_none s p hact]
  · intro f hact
    refine ⟨rfl, activate_active s p, ?_, ?_, ?_, ?_⟩
    · intro r hr
      show lookupL (activate_for_profile s p).installations p = _
      rw [activate_installations s p f hact, lookupL_adjustL, if_pos rfl, hr]
      rfl
    · intro q hq
      show lookupL (activate_for_profile s p).installations q = _
      rw [activate_installations s p f hact, lookupL_adjustL, if_neg hq]
    · intro pr hpr
      show lookupL (activate_for_profile s p).profiles f = _
      rw [activate_profiles s p f hact, lookupL_adjustL, if_pos rfl, hpr]
      rfl
    · intro g hg
      show lookupL (activate_for_profile s p).profiles g = _
      rw [activate_profiles s p f hact, lookupL_adjustL, if_neg hg]

/-- C4 witness: in `stateC1` (active profile `"work"`), installing the
already-installed `"p"` activates it for `"work"` without an installer
invocation. -/
theorem c4_witness :
    (smart_install 0 stateC1 "p" InstallScope.Global).2 = false
    ∧ lookupL (smart_install 0 stateC1 "p" InstallScope.Global).1.installations "p"
        = some { recPWorkOther with active_for := insertS "work" recPWorkOther.active_for } := by
  have h := (c4_theorem 0 stateC1 "p" InstallScope.Global (by decide)).2 "work" rfl
  exact ⟨h.1, h.2.2.1 recPWorkOther (by decide)⟩

/-- C7: when no profile is active, the `handle_removal` behaviour that
depends on the current profile degenerates to a no-op: `Deactivate`,
`RemoveFromProfile` and `MarkUnused` leave the ledger and every profile's
package set unchanged (and return successfully), as does `SmartRemove`
whenever its reference count is at least 2 (its full-uninstall branch
does not depend on the current profile). -/
theorem c7_theorem (s : InstallationStateManager) (p : String)
    (hna : s.active_profile = none) :
    ((handle_removal s p RemovalStrategy.Deactivate).1.installations = s.installations
      ∧ (handle_removal s p RemovalStrategy.Deactivate).1.profiles = s.profiles)
    ∧ ((handle_removal s p RemovalStrategy.RemoveFromProfile).1.installations = s.installations
      ∧ (handle_removal s p RemovalStrategy.RemoveFromProfile).1.profiles = s.profiles)
    ∧ ((handle_removal s p RemovalStrategy.MarkUnused).1.installations = s.installations
      ∧ (handle_removal s p RemovalStrategy.MarkUnused).1.profiles = s.profiles)
    ∧ (2 ≤ get_usage_count s p →
        (handle_removal s p RemovalStrategy.SmartRemove).1.installations = s.installations
        ∧ (handle_removal s p RemovalStrategy.SmartRemove).1.profiles = s.profiles) := by
  have hDeact : deactivate_for_profile s p = s := deactivate_none s p hna
  have hUsed : used_by_other_profiles s p = false := by
    unfold used_by_other_profiles
    rw [hna]
    cases lookupL s.installations p <;> rfl
  refine ⟨?_, ?_, ?_, ?_⟩
  · show (deactivate_for_profile s p).installations = _ ∧ (deactivate_for_profile s p).profiles = _
    rw [hDeact]; exact ⟨rfl, rfl⟩
  · have hred : (handle_removal s p RemovalStrategy.RemoveFromProfile).1
        = (if used_by_other_profiles (remove_from_profile_list s p) p = true
           then (remove_from_profile_list s p, (none : Option Nat))
           else (deactivate_for_profile (remove_from_profile_list s p) p, none)).1 := rfl
    rw [hred, used_by_rfpl, hUsed]
    have hact1 : (remove_from_profile_list s p).active_profile = none := by
      rw [rfpl_active]; exact hna
    have h2 : deactivate_for_profile (remove_from_profile_list s p) p
        = remove_from_profile_list s p := deactivate_none _ p hact1
    show (deactivate_for_profile (remove_from_profile_list s p) p).installations = _
      ∧ (deactivate_for_profile (remove_from_profile_list s p) p).profiles = _
    rw [h2, rfpl_installations, rfpl_profiles_none s p hna]
    exact ⟨rfl, rfl⟩
  · show (deactivate_for_profile s p).installations = _ ∧ (deactivate_for_profile s p).profiles = _
    rw [hDeact]; exact ⟨rfl, rfl⟩
  · intro hge
    have hnle : ¬ (get_usage_count s p ≤ 1) := by omega
    have hred : (handle_removal s p RemovalStrategy.SmartRemove).1
        = (if get_usage_count s p ≤ 1
           then (perform_uninstallation s p, (none : Option Nat))
           else (deactivate_for_profile s p, some (get_usage_count s p - 1))).1 := rfl
    rw [hred, if_neg hnle]
    show (deactivate_for_profile s p).installations = _ ∧ (deactivate_for_profile s p).profiles = _
    rw [hDeact]; exact ⟨rfl, rfl⟩

/-- C7 witness: in `stateC4` (no active profile, `"p"` referenced twice)
all four current-profile-dependent removal behaviours leave both maps
unchanged. -/
theorem c7_witness :
    (handle_removal stateC4 "p" RemovalStrategy.Deactivate).1.installations
      = stateC4.installations
    ∧ (handle_removal stateC4 "p" RemovalStrategy.RemoveFromProfile).1.profiles
      = stateC4.profiles
    ∧ (handle_removal stateC4 "p" RemovalStrategy.SmartRemove).1.installations
      = stateC4.installations := by
  have h := c7_theorem stateC4 "p" rfl
  exact ⟨h.1.1, h.2.1.2, (h.2.2.2 (by decide)).1⟩

/-- C9: deleting the currently active profile fails with the
invalid-operation error and returns the state untouched; deleting any
other profile succeeds, removes it from the registry (in memory and in
the persisted snapshot) and touches no other profile. -/
theorem c9_theorem (s : InstallationStateManager) (name : String) :
    (s.active_profile = some name →
        handleProfileDelete s name
          = (s, some "Cannot delete active profile. Switch to another profile first."))
    ∧ (s.active_profile ≠ some name →
        (handleProfileDelete s name).2 = none
        ∧ lookupL (handleProfileDelete s name).1.profiles name = none
        ∧ lookupL (handleProfileDelete s name).1.config.profiles name = none
        ∧ (∀ m, m ≠ name →
            lookupL (handleProfileDelete s name).1.profiles m = lookupL s.profiles m)) := by
  constructor
  · intro h
    unfold handleProfileDelete
    rw [if_pos h]
  · intro h
    unfold handleProfileDelete
    rw [if_neg h]
    refine ⟨rfl, ?_, ?_, ?_⟩
    · show lookupL (removeL name s.profiles) name = none
      rw [lookupL_removeL, if_pos rfl]
    · show lookupL (removeL name s.profiles) name = none
      rw [lookupL_removeL, if_pos rfl]
    · intro m hm
      show lookupL (removeL name s.profiles) m = lookupL s.profiles m
      rw [lookupL_removeL, if_neg hm]

/-- C9 witness: in `stateC1` deleting the active `"work"` fails and leaves
the state unchanged, while deleting the non-active `"other"` succeeds and
removes it. -/
theorem c9_witness :
    handleProfileDelete stateC1 "work"
      = (stateC1, some "Cannot delete active profile. Switch to another profile first.")
    ∧ (handleProfileDelete stateC1 "other").2 = none
    ∧ lookupL (handleProfileDelete stateC1 "other").1.profiles "other" = none := by
  have h1 := (c9_theorem stateC1 "work").1 rfl
  have h2 := (c9_theorem stateC1 "other").2 (by decide)
  exact ⟨h1, h2.1, h2.2.1⟩

/-- C10: `create_profile(n, parent)` always succeeds and stores under `n` a
profile with the given parent, an empty package set, the default
environment and no overrides — silently replacing any existing profile
named `n` — while every other profile, the whole ledger (including
records listing `n` in `active_for`) and the active pointer stay
unchanged. -/
theorem c10_theorem (s : InstallationStateManager) (n : String) (parent : Option String) :
    lookupL (create_profile s n parent).profiles n
      = some { name := n, parent := parent, packages := [],
               environment := defaultEnvironmentState, os_overrides := [] }
    ∧ (∀ m, m ≠ n → lookupL (create_profile s n parent).profiles m = lookupL s.profiles m)
    ∧ (create_profile s n parent).installations = s.installations
    ∧ (create_profile s n parent).active_profile = s.active_profile := by
  refine ⟨?_, ?_, rfl, rfl⟩
  · rw [create_profile_profiles, lookupL_insertL, if_pos rfl]
  · intro m hm
    rw [create_profile_profiles, lookupL_insertL, if_neg (fun h => hm h.symm)]

/-- C10 witness: re-creating `"work"` over `stateC1` silently replaces it
(its package set becomes empty) and leaves `"other"` and the ledger —
which still lists `"work"` in `active_for` — untouched. -/
theorem c10_witness :
    lookupL (create_profile stateC1 "work" none).profiles "work"
      = some { name := "work", parent := none, packages := [],
               environment := defaultEnvironmentState, os_overrides := [] }
    ∧ lookupL (create_profile stateC1 "work" none).profiles "other" = some profOther
    ∧ (create_profile stateC1 "work" none).installations = stateC1.installations := by
  have h := c10_theorem stateC1 "work" none
  refine ⟨h.1, ?_, h.2.2.1⟩
  rw [h.2.1 "other" (by decide)]
  decide

/-! ## PATH-application lemmas (claim C5) -/

/-- Freshness of the prepend paths along the loop: each path is not yet a
substring of the PATH string at the moment it is considered. -/
def freshPre (cur : String) : List String → Bool
  | [] => true
  | p :: ps => !strContains cur p && freshPre (p ++ ":" ++ cur) ps

/-- Freshness of the append paths along the loop. -/
def freshApp (cur : String) : List String → Bool
  | [] => true
  | p :: ps => !strContains cur p && freshApp (cur ++ ":" ++ p) ps

/-- The string the prepend loop puts in front of the original PATH. -/
def prependChain : List String → String
  | [] => ""
  | p :: ps => prependChain ps ++ p ++ ":"

/-- The string the append loop puts after the original PATH. -/
def appendChain : List String → String
  | [] => ""
  | p :: ps => ":" ++ p ++ appendChain ps

theorem str_assoc4 (A p cur : String) : A ++ p ++ ":" ++ cur = A ++ (p ++ ":" ++ cur) := by
  rw [String.append_assoc (A ++ p) ":" cur, String.append_assoc A p (":" ++ cur),
    String.append_assoc p ":" cur]

theorem str_assoc5 (cur a X : String) : cur ++ ":" ++ a ++ X = cur ++ (":" ++ a ++ X) := by
  rw [String.append_assoc (cur ++ ":") a X, String.append_assoc cur ":" (a ++ X),
    String.append_assoc ":" a X]

theorem joinColon_cons_ne (x : String) (l : List String) (h : l ≠ []) :
    joinColon (x :: l) = x ++ ":" ++ joinColon l := by
  cases l with
  | nil => exact absurd rfl h
  | cons y t => rfl

theorem joinColon_pair (l : List String) (a b : String) :
    joinColon (l ++ [a ++ ":" ++ b]) = joinColon (l ++ [a, b]) := by
  induction l with
  | nil => rfl
  | cons x t ih =>
    have h1 : t ++ [a ++ ":" ++ b] ≠ [] := by simp
    have h2 : t ++ [a, b] ≠ [] := by simp
    rw [List.cons_append, joinColon_cons_ne x _ h1, ih, List.cons_append,
      joinColon_cons_ne x _ h2]

theorem prependChain_join (pres : List String) : ∀ cur : String,
    prependChain pres ++ cur = joinColon (pres.reverse ++ [cur]) := by
  induction pres with
  | nil =>
    intro cur
    show "" ++ cur = joinColon [cur]
    rw [String.empty_append]
    rfl
  | cons p ps ih =>
    intro cur
    show prependChain ps ++ p ++ ":" ++ cur = _
    rw [str_assoc4, ih (p ++ ":" ++ cur), joinColon_pair, List.reverse_cons,
      List.append_assoc]
    rfl

theorem joinColon_snoc (a : String) : ∀ L : List String, L ≠ [] →
    joinColon (L ++ [a]) = joinColon L ++ ":" ++ a := by
  intro L
  induction L with
  | nil => intro h; exact absurd rfl h
  | cons x t ih =>
    intro _
    cases t with
    | nil => rfl
    | cons y u =>
      have hne : (y :: u) ++ [a] ≠ [] := by simp
      rw [List.cons_append, joinColon_cons_ne x _ hne, ih (by simp),
        joinColon_cons_ne x (y :: u) (by simp)]
      simp [String.append_assoc]

theorem appendChain_join (as : List String) : ∀ L : List String, L ≠ [] →
    joinColon L ++ appendChain as = joinColon (L ++ as) := by
  induction as with
  | nil =>
    intro L _
    show joinColon L ++ "" = joinColon (L ++ [])
    rw [String.append_empty, List.append_nil]
  | cons a t ih =>
    intro L h
    show joinColon L ++ (":" ++ a ++ appendChain t) = joinColon (L ++ a :: t)
    have h2 : L ++ [a] ≠ [] := by simp
    have e1 : joinColon L ++ (":" ++ a ++ appendChain t)
        = joinColon L ++ ":" ++ a ++ appendChain t := by
      rw [String.append_assoc (joinColon L ++ ":") a (appendChain t),
        String.append_assoc (joinColon L) ":" (a ++ appendChain t),
        String.append_assoc ":" a (appendChain t)]
    rw [e1, ← joinColon_snoc a L h, ih (L ++ [a]) h2, List.append_assoc]
    rfl

theorem prependLoop_eq (home : Option String) (pres : List String) : ∀ cur : String,
    (∀ p ∈ pres, expandPath home p = some p) → freshPre cur pres = true →
    prependLoop home cur pres = some (prependChain pres ++ cur) := by
  induction pres with
  | nil =>
    intro cur _ _
    show some cur = some ("" ++ cur)
    rw [String.empty_append]
  | cons p ps ih =>
    intro cur hexp hfresh
    have hp : expandPath home p = some p := hexp p (List.mem_cons_self p ps)
    unfold freshPre at hfresh
    rw [Bool.and_eq_true] at hfresh
    obtain ⟨h1, h2⟩ := hfresh
    have h1f : strContains cur p = false := by
      revert h1; cases strContains cur p <;> simp
    have hne : ¬ (strContains cur p = true) := by rw [h1f]; simp
    have hstep : prependLoop home cur (p :: ps)
        = prependLoop home (p ++ ":" ++ cur) ps := by
      unfold prependLoop
      rw [hp]
      show prependLoop home (if strContains cur p = true then cur else p ++ ":" ++ cur) ps = _
      rw [if_neg hne]
      cases ps <;> rfl
    rw [hstep, ih (p ++ ":" ++ cur) (fun q hq => hexp q (List.mem_cons_of_mem _ hq)) h2]
    show some (prependChain ps ++ (p ++ ":" ++ cur)) = some (prependChain ps ++ p ++ ":" ++ cur)
    rw [str_assoc4]

theorem appendLoop_eq (home : Option String) (as : List String) : ∀ cur : String,
    (∀ p ∈ as, expandPath home p = some p) → freshApp cur as = true →
    appendLoop home cur as = some (cur ++ appendChain as) := by
  induction as with
  | nil =>
    intro cur _ _
    show some cur = some (cur ++ "")
    rw [String.append_empty]
  | cons a t ih =>
    intro cur hexp hfresh
    have ha : expandPath home a = some a := hexp a (List.mem_cons_self a t)
    unfold freshApp at hfresh
    rw [Bool.and_eq_true] at hfresh
    obtain ⟨h1, h2⟩ := hfresh
    have h1f : strContains cur a = false := by
      revert h1; cases strContains cur a <;> simp
    have hne : ¬ (strContains cur a = true) := by rw [h1f]; simp
    have hstep : appendLoop home cur (a :: t)
        = appendLoop home (cur ++ ":" ++ a) t := by
      unfold appendLoop
      rw [ha]
      show appendLoop home (if strContains cur a = true then cur else cur ++ ":" ++ a) t = _
      rw [if_neg hne]
      cases t <;> rfl
    rw [hstep, ih (cur ++ ":" ++ a) (fun q hq => hexp q (List.mem_cons_of_mem _ hq)) h2]
    show some (cur ++ ":" ++ a ++ appendChain t) = some (cur ++ (":" ++ a ++ appendChain t))
    rw [str_assoc5]

theorem lookupL_fold_setEnvVar (vs : List (String × String)) : ∀ (e0 : EnvMap) (k : String),
    (∀ kv ∈ vs, kv.1 ≠ k) →
    lookupL (vs.foldl (fun acc kv => setEnvVar acc kv.1 kv.2) e0) k = lookupL e0 k := by
  induction vs with
  | nil => intro e0 k _; rfl
  | cons kv t ih =>
    intro e0 k h
    show lookupL (t.foldl (fun acc kv => setEnvVar acc kv.1 kv.2) (setEnvVar e0 kv.1 kv.2)) k
      = lookupL e0 k
    rw [ih _ k (fun q hq => h q (List.mem_cons_of_mem _ hq))]
    unfold setEnvVar
    rw [lookupL_insertL, if_neg (h kv (List.mem_cons_self kv t))]

/-- Environment used by the C5 counterexample and witness: `PATH=p`. -/
def envC5 : EnvMap := [("PATH", "p")]

/-- Active environment state prepending `a` then `b` and appending `c`. -/
def esC5 : EnvironmentState :=
  { paths_prepend := ["a", "b"], paths_append := ["c"], vars := [],
    aliases := [], active := true }

/-- C5 counterexample: applying an active environment state with
`paths_prepend = [a, b]`, `paths_append = [c]` to `PATH=p` produces
`b:a:p:c` — the prepend paths end up in reverse listed order, not the
claimed listed order `a:b:p:c`. -/
theorem c5_counterexample :
    apply_profile_environment envC5 esC5 = some [("PATH", "b:a:p:c")]
    ∧ ("b:a:p:c" : String) ≠ "a:b:p:c" := by
  exact ⟨by decide, by decide⟩

/-- C5 (amended): for an active environment state whose prepend/append
paths need no expansion and are fresh at each insertion point (and whose
variable map does not shadow `PATH`), the resulting PATH is the colon
join of the prepend paths in REVERSE listed order, then the pre-existing
PATH, then the append paths in listed order; each path is inserted only
if not already a substring of the PATH accumulated so far. -/
theorem c5_theorem (e : EnvMap) (es : EnvironmentState)
    (hact : es.active = true)
    (hexp : ∀ p ∈ es.paths_prepend ++ es.paths_append,
        expandPath (envVar e "HOME") p = some p)
    (hfp : freshPre ((envVar e "PATH").getD "") es.paths_prepend = true)
    (hfa : freshApp (joinColon (es.paths_prepend.reverse ++ [(envVar e "PATH").getD ""]))
        es.paths_append = true)
    (hv : ∀ kv ∈ es.vars, kv.1 ≠ "PATH") :
    ∃ e', apply_profile_environment e es = some e'
      ∧ lookupL e' "PATH"
          = some (joinColon (es.paths_prepend.reverse
              ++ (envVar e "PATH").getD "" :: es.paths_append)) := by
  have hexpPre : ∀ p ∈ es.paths_prepend, expandPath (envVar e "HOME") p = some p :=
    fun p hp => hexp p (List.mem_append_left _ hp)
  have hexpApp : ∀ p ∈ es.paths_append, expandPath (envVar e "HOME") p = some p :=
    fun p hp => hexp p (List.mem_append_right _ hp)
  have h1 : prependLoop (envVar e "HOME") ((envVar e "PATH").getD "") es.paths_prepend
      = some (prependChain es.paths_prepend ++ (envVar e "PATH").getD "") :=
    prependLoop_eq _ _ _ hexpPre hfp
  have hmid : prependChain es.paths_prepend ++ (envVar e "PATH").getD ""
      = joinColon (es.paths_prepend.reverse ++ [(envVar e "PATH").getD ""]) :=
    prependChain_join _ _
  have hfa' : freshApp (prependChain es.paths_prepend ++ (envVar e "PATH").getD "")
      es.paths_append = true := by rw [hmid]; exact hfa
  have h2 : appendLoop (envVar e "HOME")
      (prependChain es.paths_prepend ++ (envVar e "PATH").getD "") es.paths_append
      = some ((prependChain es.paths_prepend ++ (envVar e "PATH").getD "")
          ++ appendChain es.paths_append) :=
    appendLoop_eq _ _ _ hexpApp hfa'
  have hne : es.paths_prepend.reverse ++ [(envVar e "PATH").getD ""] ≠ [] := by simp
  have hfinal : (prependChain es.paths_prepend ++ (envVar e "PATH").getD "")
      ++ appendChain es.paths_append
      = joinColon (es.paths_prepend.reverse
          ++ (envVar e "PATH").getD "" :: es.paths_append) := by
    rw [hmid, appendChain_join _ _ hne, List.append_assoc]
    rfl
  have hpath : apply_path_changes e es
      = some (setEnvVar e "PATH" (joinColon (es.paths_prepend.reverse
          ++ (envVar e "PATH").getD "" :: es.paths_append))) := by
    unfold apply_path_changes
    show (match prependLoop (envVar e "HOME") ((envVar e "PATH").getD "")
        es.paths_prepend with
      | none => none
      | some cur1 =>
        match appendLoop (envVar e "HOME") cur1 es.paths_append with
        | none => none
        | some cur2 => some (setEnvVar e "PATH" cur2)) = _
    rw [h1]
    show (match appendLoop (envVar e "HOME")
        (prependChain es.paths_prepend ++ (envVar e "PATH").getD "") es.paths_append with
      | none => none
      | some cur2 => some (setEnvVar e "PATH" cur2)) = _
    rw [h2, hfinal]
  have hred : apply_profile_environment e es
      = match apply_path_changes e es with
        | none => none
        | some e1 => some (es.vars.foldl (fun acc kv => setEnvVar acc kv.1 kv.2) e1) := by
    unfold apply_profile_environment
    rw [hact]
    rfl
  refine ⟨es.vars.foldl (fun acc kv => setEnvVar acc kv.1 kv.2)
      (setEnvVar e "PATH" (joinColon (es.paths_prepend.reverse
        ++ (envVar e "PATH").getD "" :: es.paths_append))), ?_, ?_⟩
  · rw [hred, hpath]
  · rw [lookupL_fold_setEnvVar es.vars
      (setEnvVar e "PATH" (joinColon (es.paths_prepend.reverse
        ++ (envVar e "PATH").getD "" :: es.paths_append))) "PATH" hv]
    unfold setEnvVar
    rw [lookupL_insertL, if_pos rfl]

/-- C5 witness: the amended PATH-order theorem applied to `PATH=p`,
prepends `[a, b]`, append `[c]`. -/
theorem c5_witness :
    ∃ e', apply_profile_environment envC5 esC5 = some e'
      ∧ lookupL e' "PATH"
          = some (joinColon (esC5.paths_prepend.reverse
              ++ (envVar envC5 "PATH").getD "" :: esC5.paths_append)) :=
  c5_theorem envC5 esC5 (by decide) (by decide) (by decide) (by decide) (by decide)

/-! ## Shell-config marker lemmas (claim C6) -/

theorem takeApp (a b : List Char) : (a ++ b).take a.length = a := by
  induction a with
  | nil => rfl
  | cons c t ih => simp [List.take_succ_cons, ih]

theorem dropAppPlus (a b : List Char) (k : Nat) :
    (a ++ b).drop (a.length + k) = b.drop k := by
  induction a with
  | nil => simp
  | cons c t ih =>
    show (c :: (t ++ b)).drop (t.length + 1 + k) = b.drop k
    rw [Nat.add_right_comm, List.drop_succ_cons]
    exact ih

theorem findChar_append (x y : List Char) (hx : '\n' ∉ x) :
    findChar '\n' (x ++ '\n' :: y) = some x.length := by
  induction x with
  | nil => simp [findChar]
  | cons c t ih =>
    have hc : ¬ (c = '\n') := fun h => hx (h ▸ List.mem_cons_self c t)
    have ht : '\n' ∉ t := fun h => hx (List.mem_cons_of_mem c h)
    simp [findChar, hc, ih ht]

theorem removedMarkerChunk_spec (a b c : List Char)
    (hfind : findSubIdx markerHead (a ++ markerHead ++ b ++ '\n' :: c) = some a.length)
    (hb : '\n' ∉ b) :
    removedMarkerChunk (a ++ markerHead ++ b ++ '\n' :: c) = a ++ c := by
  unfold removedMarkerChunk
  rw [hfind]
  have hdrop : (a ++ (markerHead ++ (b ++ '\n' :: c))).drop a.length
      = markerHead ++ (b ++ '\n' :: c) := by
    have h0 := dropAppPlus a (markerHead ++ (b ++ '\n' :: c)) 0
    rw [Nat.add_zero, List.drop_zero] at h0
    exact h0
  show (match findChar '\n' ((a ++ markerHead ++ b ++ '\n' :: c).drop a.length) with
    | some e => (a ++ markerHead ++ b ++ '\n' :: c).take a.length
        ++ (a ++ markerHead ++ b ++ '\n' :: c).drop (a.length + e + 1)
    | none => a ++ markerHead ++ b ++ '\n' :: c) = a ++ c
  have hcontent : a ++ markerHead ++ b ++ '\n' :: c
      = a ++ (markerHead ++ (b ++ '\n' :: c)) := by
    simp [List.append_assoc]
  rw [hcontent, hdrop]
  have hassoc : markerHead ++ (b ++ '\n' :: c) = (markerHead ++ b) ++ '\n' :: c :=
    (List.append_assoc _ _ _).symm
  rw [hassoc]
  have hx : '\n' ∉ markerHead ++ b := by
    intro h
    rcases List.mem_append.mp h with h1 | h1
    · revert h1
      decide
    · exact hb h1
  rw [findChar_append _ _ hx]
  show (a ++ ((markerHead ++ b) ++ '\n' :: c)).take a.length
      ++ (a ++ ((markerHead ++ b) ++ '\n' :: c)).drop (a.length + (markerHead ++ b).length + 1)
      = a ++ c
  have hdrop2 : (a ++ ((markerHead ++ b) ++ '\n' :: c)).drop
      (a.length + (markerHead ++ b).length + 1) = c := by
    have h1 : a.length + (markerHead ++ b).length + 1
        = a.length + ((markerHead ++ b).length + 1) := by omega
    rw [h1, dropAppPlus]
    exact dropAppPlus (markerHead ++ b) ('\n' :: c) 1
  rw [takeApp, hdrop2]

/-- C6 counterexample: in the content `"A # ZSHRCMAN_PROFILE: old\nB\n"` no
line starts with the marker prefix, so per the claim nothing would be
removed and the result would be the content plus the new marker line.
The code instead removes from the first mid-line occurrence of the
substring through the newline, yielding `"A B\n..."` — and thereby also
changes characters the claim says are preserved verbatim. -/
theorem c6_counterexample :
    updateShellConfig "A # ZSHRCMAN_PROFILE: old\nB\n" "new"
      = "A B\n# ZSHRCMAN_PROFILE: new\n"
    ∧ updateShellConfig "A # ZSHRCMAN_PROFILE: old\nB\n" "new"
      ≠ "A # ZSHRCMAN_PROFILE: old\nB\n# ZSHRCMAN_PROFILE: new\n" := by
  exact ⟨by decide, by decide⟩

/-- C6 (amended): the update removes the first occurrence of the substring
`"# ZSHRCMAN_PROFILE:"` — wherever it occurs, not only at a line start —
from the occurrence itself through its terminating newline (removing
nothing when the substring is absent, and leaving any line prefix before
the occurrence in place), then appends a newline to nonempty content not
ending in one, followed by the marker line `"# ZSHRCMAN_PROFILE: <name>"`
and a newline; all characters outside the removed span are preserved. -/
theorem c6_theorem :
    (∀ (a b c : List Char) (name : String),
        findSubIdx markerHead (a ++ markerHead ++ b ++ '\n' :: c) = some a.length →
        '\n' ∉ b →
        updateShellConfigL (a ++ markerHead ++ b ++ '\n' :: c) name
          = ensureTrailingNl (a ++ c)
            ++ ("# ZSHRCMAN_PROFILE: " ++ name).toList ++ ['\n'])
    ∧ (∀ (content : List Char) (name : String),
        findSubIdx markerHead content = none →
        updateShellConfigL content name
          = ensureTrailingNl content
            ++ ("# ZSHRCMAN_PROFILE: " ++ name).toList ++ ['\n']) := by
  constructor
  · intro a b c name hfind hb
    unfold updateShellConfigL
    rw [removedMarkerChunk_spec a b c hfind hb]
  · intro content name hfind
    unfold updateShellConfigL
    unfold removedMarkerChunk
    rw [hfind]

/-- C6 witness: the amended marker-update theorem applied to a content
with the marker occurring as a full line. -/
theorem c6_witness :
    updateShellConfigL ("x\n".toList ++ markerHead ++ " old".toList ++ '\n' :: "rest\n".toList)
        "new"
      = ensureTrailingNl ("x\n".toList ++ "rest\n".toList)
        ++ ("# ZSHRCMAN_PROFILE: " ++ "new").toList ++ ['\n'] :=
  c6_theorem.1 "x\n".toList " old".toList "rest\n".toList "new" (by decide) (by decide)

/-! ## Frame lemmas for the profile switcher -/

theorem stepThen_err (r : World × Option String) (next : World → World × Option String)
    (m : String) (h : r.2 = some m) : stepThen r next = (r.1, some m) := by
  unfold stepThen; rw [h]

theorem stepThen_ok (r : World × Option String) (next : World → World × Option String)
    (h : r.2 = none) : stepThen r next = next r.1 := by
  unfold stepThen; rw [h]

theorem deact_env_sm (w : World) (o : String) :
    (deactivate_environment w o).1.sm = w.sm := rfl

theorem deact_env_binDirs (w : World) (o : String) :
    (deactivate_environment w o).1.binDirs = w.binDirs := rfl

theorem deact_env_shell (w : World) (o : String) :
    (deactivate_environment w o).1.shellConfig = w.shellConfig := rfl

theorem act_env_sm (w : World) (p : String) :
    (activate_environment w p).1.sm = w.sm := rfl

theorem act_env_binDirs (w : World) (p : String) :
    (activate_environment w p).1.binDirs = w.binDirs := rfl

theorem act_env_shell (w : World) (p : String) :
    (activate_environment w p).1.shellConfig = w.shellConfig := rfl

theorem uab_sm (w : World) (p : String) :
    (update_active_binaries w p).1.sm = w.sm := by
  unfold update_active_binaries
  cases envVar w.env "HOME" with
  | none => rfl
  | some h => rfl

theorem uab_env (w : World) (p : String) :
    (update_active_binaries w p).1.env = w.env := by
  unfold update_active_binaries
  cases envVar w.env "HOME" with
  | none => rfl
  | some h => rfl

theorem uab_shell (w : World) (p : String) :
    (update_active_binaries w p).1.shellConfig = w.shellConfig := by
  unfold update_active_binaries
  cases envVar w.env "HOME" with
  | none => rfl
  | some h => rfl

theorem uabBins_lookup_other (sm : InstallationStateManager)
    (bd : List (String × List (String × String))) (p k : String) (hk : k ≠ p) :
    lookupL (updateActiveBinariesDirs sm bd p).1 k = lookupL bd k := by
  unfold updateActiveBinariesDirs
  show lookupL (insertL p _ (adjustL p _ (if (lookupL bd p).isSome then bd
      else insertL p [] bd))) k = lookupL bd k
  rw [lookupL_insertL, if_neg (fun h => hk h.symm), lookupL_adjustL, if_neg hk]
  by_cases h : (lookupL bd p).isSome
  · rw [if_pos h]
  · rw [if_neg h, lookupL_insertL, if_neg (fun h2 => hk h2.symm)]

theorem uabBins_lookup_self (sm : InstallationStateManager)
    (bd : List (String × List (String × String))) (p : String) :
    lookupL (updateActiveBinariesDirs sm bd p).1 p
      = some (linkLoop sm [] (InstallationStateManager.get_active_packages sm p)).1 := by
  unfold updateActiveBinariesDirs
  show lookupL (insertL p _ _) p = _
  rw [lookupL_insertL, if_pos rfl]

theorem uab_binDirs_other (w : World) (p k : String) (hk : k ≠ p) :
    lookupL (update_active_binaries w p).1.binDirs k = lookupL w.binDirs k := by
  unfold update_active_binaries
  cases hh : envVar w.env "HOME" with
  | none => rfl
  | some h =>
    show lookupL (updateActiveBinariesDirs w.sm w.binDirs p).1 k = _
    exact uabBins_lookup_other w.sm w.binDirs p k hk

theorem uab_binDirs_self (w : World) (p : String)
    (hok : (update_active_binaries w p).2 = none) :
    lookupL (update_active_binaries w p).1.binDirs p
      = some (linkLoop w.sm [] (InstallationStateManager.get_active_packages w.sm p)).1 := by
  unfold update_active_binaries at hok ⊢
  cases hh : envVar w.env "HOME" with
  | none =>
    rw [hh] at hok
    exact Option.noConfusion hok
  | some h =>
    show lookupL (updateActiveBinariesDirs w.sm w.binDirs p).1 p = _
    exact uabBins_lookup_self w.sm w.binDirs p

theorem usc_sm (w : World) (p : String) : (update_shell_config w p).sm = w.sm := rfl

theorem usc_binDirs (w : World) (p : String) :
    (update_shell_config w p).binDirs = w.binDirs := rfl

theorem usc_shell (w : World) (p : String) :
    (update_shell_config w p).shellConfig
      = some (updateShellConfig (w.shellConfig.getD "") p) := rfl

/-- C3 (amended): `switch_profile(new)` runs the five steps in order with
no rollback — but step 1 only reverses the old profile's environment
(variables and PATH); it does NOT remove the old profile's bin-directory
contents.  With an old profile active whose deactivation succeeds:
if the new profile does not exist, step 2 fails, the whole call returns
that error, the world keeps step 1's environment change and nothing else
(registry, bin directories, shell config untouched — and not rolled
back); if steps 2-4 succeed, the call ends with step 5, the pointer is
`new` and persisted, the new profile's bin directory holds exactly the
links made for its active packages with known locations, the OLD
profile's bin directory is untouched, and the shell-config marker is
rewritten from the original content. -/
theorem c3_theorem (w : World) (o newp : String)
    (hold : w.sm.active_profile = some o)
    (h1 : (deactivate_environment w o).2 = none) :
    (lookupL (deactivate_environment w o).1.sm.profiles newp = none →
        switchProfileW w newp
          = ((deactivate_environment w o).1,
             some ("Profile " ++ newp ++ " does not exist"))
        ∧ (deactivate_environment w o).1.sm = w.sm
        ∧ (deactivate_environment w o).1.binDirs = w.binDirs
        ∧ (deactivate_environment w o).1.shellConfig = w.shellConfig)
    ∧ (∀ sm2, InstallationStateManager.switch_profile (deactivate_environment w o).1.sm newp
          = Except.ok sm2 →
        (activate_environment { (deactivate_environment w o).1 with sm := sm2 } newp).2
          = none →
        (update_active_binaries
          (activate_environment { (deactivate_environment w o).1 with sm := sm2 } newp).1
          newp).2 = none →
        switchProfileW w newp
          = (update_shell_config
              (update_active_binaries
                (activate_environment
                  { (deactivate_environment w o).1 with sm := sm2 } newp).1 newp).1
              newp, none)
        ∧ sm2.active_profile = some newp
        ∧ (switchProfileW w newp).1.sm = sm2
        ∧ (o ≠ newp →
            lookupL (switchProfileW w newp).1.binDirs o = lookupL w.binDirs o)
        ∧ lookupL (switchProfileW w newp).1.binDirs newp
            = some (linkLoop sm2 []
                (InstallationStateManager.get_active_packages sm2 newp)).1
        ∧ (switchProfileW w newp).1.shellConfig
            = some (updateShellConfig (w.shellConfig.getD "") newp)) := by
  constructor
  · intro hnew
    refine ⟨?_, rfl, rfl, rfl⟩
    have hsw : InstallationStateManager.switch_profile
        (deactivate_environment w o).1.sm newp
        = Except.error ("Profile " ++ newp ++ " does not exist") := by
      unfold InstallationStateManager.switch_profile
      rw [hnew]
      rfl
    unfold switchProfileW
    rw [hold]
    show stepThen (deactivate_environment w o) _ = _
    rw [stepThen_ok _ _ h1]
    show stepThen (match InstallationStateManager.switch_profile
        (deactivate_environment w o).1.sm newp with
      | Except.error msg => ((deactivate_environment w o).1, some msg)
      | Except.ok sm2 => ({ (deactivate_environment w o).1 with sm := sm2 }, none)) _ = _
    rw [hsw]
    rfl
  · intro sm2 hsm2 hact3 hupd4
    have heq : switchProfileW w newp
        = (update_shell_config
            (update_active_binaries
              (activate_environment
                { (deactivate_environment w o).1 with sm := sm2 } newp).1 newp).1
            newp, none) := by
      unfold switchProfileW
      rw [hold]
      show stepThen (deactivate_environment w o) _ = _
      rw [stepThen_ok _ _ h1]
      show stepThen (match InstallationStateManager.switch_profile
          (deactivate_environment w o).1.sm newp with
        | Except.error msg => ((deactivate_environment w o).1, some msg)
        | Except.ok sm2 => ({ (deactivate_environment w o).1 with sm := sm2 }, none)) _ = _
      rw [hsm2]
      show stepThen (({ (deactivate_environment w o).1 with sm := sm2 } : World),
          (none : Option String)) _ = _
      rw [stepThen_ok _ _ rfl]
      show stepThen (activate_environment
          { (deactivate_environment w o).1 with sm := sm2 } newp) _ = _
      rw [stepThen_ok _ _ hact3]
      show stepThen (update_active_binaries
          (activate_environment
            { (deactivate_environment w o).1 with sm := sm2 } newp).1 newp) _ = _
      rw [stepThen_ok _ _ hupd4]
    have hactive : sm2.active_profile = some newp := by
      obtain ⟨rfl, -⟩ := switch_profile_ok _ _ _ hsm2
      rfl
    refine ⟨heq, hactive, ?_, ?_, ?_, ?_⟩
    · rw [heq]
      show (update_shell_config _ _).sm = sm2
      rw [usc_sm, uab_sm, act_env_sm]
    · intro ho
      rw [heq]
      show lookupL (update_shell_config _ _).binDirs o = _
      rw [usc_binDirs, uab_binDirs_other _ _ _ ho, act_env_binDirs]
      rfl
    · rw [heq]
      show lookupL (update_shell_config _ _).binDirs newp = _
      rw [usc_binDirs, uab_binDirs_self _ _ hupd4]
      rfl
    · rw [heq]
      show (update_shell_config _ _).shellConfig = _
      rw [usc_shell, uab_shell, act_env_shell]
      rfl

/-- Profile `"work"` with no packages. -/
def profWorkEmpty : Profile :=
  { name := "work", parent := none, packages := [],
    environment := defaultEnvironmentState, os_overrides := [] }

/-- Profile `"new"` with no packages. -/
def profNewEmpty : Profile :=
  { name := "new", parent := none, packages := [],
    environment := defaultEnvironmentState, os_overrides := [] }

/-- State manager with profiles `"work"` (active) and `"new"`, in sync. -/
def smC3 : InstallationStateManager :=
  { installations := []
    profiles := [("work", profWorkEmpty), ("new", profNewEmpty)]
    active_profile := some "work"
    config := { installations := []
                profiles := [("work", profWorkEmpty), ("new", profNewEmpty)]
                active_profile := some "work" } }

/-- World for C3/C8: `HOME` set, the active profile's bin directory holds
one symlink, no shell config yet. -/
def worldC3 : World :=
  { sm := smC3
    env := [("HOME", "/h")]
    binDirs := [("work", [("tool", "/loc")])]
    shellConfig := none }

/-- C3 counterexample: switching from `"work"` to `"new"` succeeds, yet the
old profile's bin directory still holds its symlink afterwards — step 1
does not remove the old profile's bin-directory contents as claimed (it
only reverses PATH/variables). -/
theorem c3_counterexample :
    (switchProfileW worldC3 "new").2 = none
    ∧ lookupL (switchProfileW worldC3 "new").1.binDirs "work" = some [("tool", "/loc")]
    ∧ lookupL (switchProfileW worldC3 "new").1.binDirs "work"
        ≠ some ([] : List (String × String)) := by
  refine ⟨by decide, by decide, by decide⟩

/-- `smC3` after the pointer switched to `"new"` and was persisted. -/
def smC3after : InstallationStateManager :=
  { installations := []
    profiles := [("work", profWorkEmpty), ("new", profNewEmpty)]
    active_profile := some "new"
    config := { installations := []
                profiles := [("work", profWorkEmpty), ("new", profNewEmpty)]
                active_profile := some "new" } }

/-- C3 witness: the amended switch theorem applied to `worldC3`: aborting
on a nonexistent target, and the successful switch to `"new"` keeping the
old bin directory, updating the pointer and rewriting the marker. -/
theorem c3_witness :
    (switchProfileW worldC3 "ghost").2 = some ("Profile " ++ "ghost" ++ " does not exist")
    ∧ (switchProfileW worldC3 "new").2 = none
    ∧ lookupL (switchProfileW worldC3 "new").1.binDirs "work"
        = lookupL worldC3.binDirs "work"
    ∧ (switchProfileW worldC3 "new").1.sm.active_profile = some "new"
    ∧ (switchProfileW worldC3 "new").1.shellConfig
        = some (updateShellConfig (worldC3.shellConfig.getD "") "new") := by
  have habort := (c3_theorem worldC3 "work" "ghost" rfl (by decide)).1 (by decide)
  have hsucc := (c3_theorem worldC3 "work" "new" rfl (by decide)).2 smC3after rfl
    (by decide) (by decide)
  refine ⟨?_, ?_, ?_, ?_, ?_⟩
  · rw [habort.1]
  · rw [hsucc.1]
  · exact hsucc.2.2.2.1 (by decide)
  · rw [hsucc.2.2.1]
    rfl
  · exact hsucc.2.2.2.2.2

/-! ## Snapshot synchronisation (claim C8) -/

/-- The persisted snapshot agrees with the in-memory state. -/
def synced (s : InstallationStateManager) : Prop :=
  s.config.installations = s.installations
  ∧ s.config.profiles = s.profiles
  ∧ s.config.active_profile = s.active_profile

theorem synced_save (s : InstallationStateManager) : synced (save_state s) :=
  ⟨rfl, rfl, rfl⟩

theorem synced_deactivate (s : InstallationStateManager) (p : String)
    (h : synced s) : synced (deactivate_for_profile s p) := by
  cases hact : s.active_profile with
  | none => rw [deactivate_none s p hact]; exact h
  | some f =>
    unfold deactivate_for_profile
    rw [hact]
    exact synced_save _

theorem synced_activate_for (s : InstallationStateManager) (p : String)
    (h : synced s) : synced (activate_for_profile s p) := by
  cases hact : s.active_profile with
  | none => rw [activate_none s p hact]; exact h
  | some f =>
    unfold activate_for_profile
    rw [hact]
    exact synced_save _

theorem stepThen_sm_cases (r : World × Option String)
    (next : World → World × Option String) :
    (stepThen r next).1 = r.1 ∨ stepThen r next = next r.1 := by
  unfold stepThen
  cases r.2 with
  | none => right; rfl
  | some m => left; rfl

theorem synced_switch_tail (w1 : World) (n : String) (hw1 : synced w1.sm) :
    synced ((stepThen (match InstallationStateManager.switch_profile w1.sm n with
      | Except.error msg => (w1, some msg)
      | Except.ok sm2 => ({ w1 with sm := sm2 }, none)) (fun w2 =>
      stepThen (activate_environment w2 n) (fun w3 =>
      stepThen (update_active_binaries w3 n) (fun w4 =>
      (update_shell_config w4 n, none))))).1.sm) := by
  cases hsw : InstallationStateManager.switch_profile w1.sm n with
  | error m => exact hw1
  | ok sm2 =>
    have hsy : synced sm2 := by
      obtain ⟨rfl, -⟩ := switch_profile_ok _ _ _ hsw
      exact synced_save _
    show synced ((stepThen (activate_environment { w1 with sm := sm2 } n) (fun w3 =>
      stepThen (update_active_binaries w3 n) (fun w4 =>
      (update_shell_config w4 n, none)))).1.sm)
    rcases stepThen_sm_cases (activate_environment { w1 with sm := sm2 } n) (fun w3 =>
      stepThen (update_active_binaries w3 n) (fun w4 =>
      (update_shell_config w4 n, none))) with h | h
    · rw [h, act_env_sm]
      exact hsy
    · rw [h]
      show synced ((stepThen (update_active_binaries
          (activate_environment { w1 with sm := sm2 } n).1 n) (fun w4 =>
          (update_shell_config w4 n, none))).1.sm)
      rcases stepThen_sm_cases (update_active_binaries
          (activate_environment { w1 with sm := sm2 } n).1 n) (fun w4 =>
          (update_shell_config w4 n, none)) with h2 | h2
      · rw [h2, uab_sm, act_env_sm]
        exact hsy
      · rw [h2]
        show synced ((update_shell_config (update_active_binaries
            (activate_environment { w1 with sm := sm2 } n).1 n).1 n).sm)
        rw [usc_sm, uab_sm, act_env_sm]
        exact hsy

theorem stepThen_synced (r : World × Option String)
    (next : World → World × Option String)
    (h1 : synced r.1.sm) (h2 : synced ((next r.1).1.sm)) :
    synced ((stepThen r next).1.sm) := by
  rcases stepThen_sm_cases r next with h | h
  · rw [h]; exact h1
  · rw [h]; exact h2

theorem synced_switchW (w : World) (n : String) (hw : synced w.sm) :
    synced (switchProfileW w n).1.sm := by
  unfold switchProfileW
  cases hact : w.sm.active_profile with
  | none => exact synced_switch_tail w n hw
  | some o =>
    exact stepThen_synced (deactivate_environment w o) _ hw
      (synced_switch_tail (deactivate_environment w o).1 n hw)

theorem synced_activateW (w : World) (p : String) (hw : synced w.sm) :
    synced (activateProfileW w p).1.sm := by
  unfold activateProfileW
  rcases stepThen_sm_cases (activate_environment w p) (fun w3 =>
    stepThen (update_active_binaries w3 p) (fun w4 =>
    (update_shell_config w4 p, none))) with h | h
  · rw [h, act_env_sm]
    exact hw
  · rw [h]
    show synced ((stepThen (update_active_binaries (activate_environment w p).1 p)
      (fun w4 => (update_shell_config w4 p, none))).1.sm)
    rcases stepThen_sm_cases (update_active_binaries (activate_environment w p).1 p)
      (fun w4 => (update_shell_config w4 p, none)) with h2 | h2
    · rw [h2, uab_sm, act_env_sm]
      exact hw
    · rw [h2]
      show synced ((update_shell_config
          (update_active_binaries (activate_environment w p).1 p).1 p).sm)
      rw [usc_sm, uab_sm, act_env_sm]
      exact hw

/-- C8 counterexample: in `worldC3` (snapshot in sync, active profile
`"work"`), `deactivate_current` succeeds and clears the in-memory
active-profile pointer, but no persistence call follows: the persisted
snapshot still records `"work"` as active, so the snapshot and the
in-memory state disagree after a successfully completed mutating
operation. -/
theorem c8_counterexample :
    (deactivateCurrentW worldC3).2 = none
    ∧ (deactivateCurrentW worldC3).1.sm.active_profile = none
    ∧ (deactivateCurrentW worldC3).1.sm.config.active_profile = some "work" := by
  refine ⟨by decide, by decide, by decide⟩

/-- C8 (amended): every mutating operation of the state manager
(`smart_install`, `handle_removal` with every strategy, `create_profile`,
`switch_profile`) and the switcher's `switch_profile`/`activate_profile`
leave the persisted snapshot equal to the resulting in-memory state
(given it was in sync before, which only matters for the paths that
mutate nothing).  `deactivate_current` is the exception: it clears the
active-profile pointer without persisting, leaving the snapshot stale
(see the counterexample). -/
theorem c8_theorem (s : InstallationStateManager) (hs : synced s) :
    (∀ now p scope, synced (smart_install now s p scope).1)
    ∧ (∀ p strat, synced (handle_removal s p strat).1)
    ∧ (∀ n parent, synced (create_profile s n parent))
    ∧ (∀ n s', switch_profile s n = Except.ok s' → synced s')
    ∧ (∀ (w : World) n, synced w.sm → synced (switchProfileW w n).1.sm)
    ∧ (∀ (w : World) p, synced w.sm → synced (activateProfileW w p).1.sm) := by
  refine ⟨?_, ?_, ?_, ?_, ?_, ?_⟩
  · intro now p scope
    by_cases hi : is_installed s p = true
    · have hred : (smart_install now s p scope).1 = activate_for_profile s p := by
        unfold smart_install; rw [if_pos hi]
      rw [hred]
      exact synced_activate_for s p hs
    · have hred : (smart_install now s p scope).1 = perform_installation now s p scope := by
        unfold smart_install; rw [if_neg hi]
      rw [hred]
      exact synced_save _
  · intro p strat
    have hs1 : synced (remove_from_profile_list s p) := by
      unfold remove_from_profile_list
      exact synced_save _
    cases strat with
    | Deactivate => exact synced_deactivate s p hs
    | RemoveFromProfile =>
      have hred : (handle_removal s p RemovalStrategy.RemoveFromProfile).1
          = (if used_by_other_profiles (remove_from_profile_list s p) p = true
             then (remove_from_profile_list s p, (none : Option Nat))
             else (deactivate_for_profile (remove_from_profile_list s p) p, none)).1 := rfl
      rw [hred]
      by_cases hu : used_by_other_profiles (remove_from_profile_list s p) p = true
      · rw [if_pos hu]
        exact hs1
      · rw [if_neg hu]
        exact synced_deactivate _ p hs1
    | SmartRemove =>
      have hred : (handle_removal s p RemovalStrategy.SmartRemove).1
          = (if get_usage_count s p ≤ 1
             then (perform_uninstallation s p, (none : Option Nat))
             else (deactivate_for_profile s p, some (get_usage_count s p - 1))).1 := rfl
      rw [hred]
      by_cases hc : get_usage_count s p ≤ 1
      · rw [if_pos hc]
        exact synced_save _
      · rw [if_neg hc]
        exact synced_deactivate s p hs
    | ForceRemove =>
      show synced (remove_from_all_profiles (perform_uninstallation s p) p)
      unfold remove_from_all_profiles
      exact synced_save _
    | MarkUnused => exact synced_deactivate s p hs
  · intro n parent
    unfold create_profile
    exact synced_save _
  · intro n s' h
    obtain ⟨rfl, -⟩ := switch_profile_ok s n s' h
    exact synced_save _
  · exact fun w n hw => synced_switchW w n hw
  · exact fun w p hw => synced_activateW w p hw

/-- C8 witness: the snapshot-synchronisation theorem applied to the
concrete state `stateC1` and world `worldC3`. -/
theorem c8_witness :
    synced (create_profile stateC1 "x" none)
    ∧ synced (handle_removal stateC1 "p" RemovalStrategy.ForceRemove).1
    ∧ synced (switchProfileW worldC3 "new").1.sm := by
  have h := c8_theorem stateC1 ⟨rfl, rfl, rfl⟩
  exact ⟨h.2.2.1 "x" none, h.2.1 "p" RemovalStrategy.ForceRemove,
    h.2.2.2.2.1 worldC3 "new" ⟨rfl, rfl, rfl⟩⟩
